import Mathlib

/-!
Verification of `samcli/lib/samlib/resource_metadata_normalizer.py`.

The template document is shallowly embedded as a JSON-like value type `JVal`;
Python dictionaries become association lists (`List (String × JVal)`) whose
`get`/item-assignment operations are modelled by `dget`/`dset` (first-match
lookup, in-place update preserving key order, append for a new key).  The
in-place mutation performed by `ResourceMetadataNormalizer.normalize` is
modelled by explicit state passing: `normalize` takes the template dictionary
and returns the updated dictionary.  Python code paths that raise exceptions
(`TypeError` from `pathlib.Path(None)`, `AttributeError` from calling `.get`
or `.items` on a non-dict, item assignment on a non-dict) are modelled with
`Except String`; logging calls (`LOG.info`) are modelled by returning a list
of emitted diagnostic messages.  The collaborator `is_cdk_project` (imported
from `samcli.lib.iac.cdk.utils`, which is outside the sources under
verification; the spec describes it only as an external detection predicate
taking the whole template) is modelled as an explicit function parameter of
`normalize`.
-/

set_option autoImplicit false

namespace SamNormalizer

/-- A parsed JSON/YAML document value: the payload of a CloudFormation-style
template.  Python `dict`s are association lists in document order. -/
inductive JVal where
  | jnull
  | jbool (b : Bool)
  | jstr  (s : String)
  | jnum  (n : Int)
  | jarr  (xs : List JVal)
  | jobj  (fields : List (String × JVal))
  deriving Repr

/-- Python `d.get(key)`: first entry with the given key, if any. -/
def dget : List (String × JVal) → String → Option JVal
  | [], _ => none
  | (k, v) :: rest, key => if k = key then some v else dget rest key

/-- Python `d.get(key, default)`. -/
def dgetD (m : List (String × JVal)) (key : String) (default : JVal) : JVal :=
  (dget m key).getD default

/-- Python `d[key] = v`: overwrite the first entry with this key keeping its
position, or append a new entry at the end (dict insertion order). -/
def dset : List (String × JVal) → String → JVal → List (String × JVal)
  | [], key, v => [(key, v)]
  | (k, w) :: rest, key, v =>
    if k = key then (k, v) :: rest else (k, w) :: dset rest key v

/-- Python `key in d` for a dict. -/
def hasKey (m : List (String × JVal)) (key : String) : Bool :=
  (dget m key).isSome

/-- Python truthiness of a document value. -/
def truthy : JVal → Bool
  | .jnull => false
  | .jbool b => b
  | .jstr s => !(s == "")
  | .jnum n => !(n == 0)
  | .jarr xs => !xs.isEmpty
  | .jobj fs => !fs.isEmpty

/-- Python truthiness of a possibly-absent value (`None` is falsy). -/
def otruthy : Option JVal → Bool
  | none => false
  | some v => truthy v

/-- Python `v == "literal"` where `v` is a document value: only a string with
the same characters compares equal. -/
def jvEqStr : JVal → String → Bool
  | .jstr s, t => s == t
  | _, _ => false

/-- Python `v == "literal"` where `v` may be `None` (absent key). -/
def pyEqStr : Option JVal → String → Bool
  | some v, t => jvEqStr v t
  | none, _ => false

/-- Split a character list on a one-character separator (Python
`str.split(sep)` for the single-character separators `"."`, `"/"` used by the
source). -/
def splitCharList (sep : Char) : List Char → List (List Char)
  | [] => [[]]
  | c :: rest =>
    if c = sep then [] :: splitCharList sep rest
    else
      match splitCharList sep rest with
      | [] => [[c]]
      | g :: gs => (c :: g) :: gs

/-- Python `s.split(sep)` for a one-character separator. -/
def pySplit (s : String) (sep : Char) : List String :=
  (splitCharList sep s.data).map String.mk

/-- Python `s.lower()` (the logical ids appearing in templates are ASCII, for
which `Char.toLower` agrees with Python). -/
def pyLower (s : String) : String :=
  String.mk (s.data.map Char.toLower)

/-- Python `s.startswith(pre)`. -/
def pyStartsWith (s pre : String) : Bool :=
  pre.data.isPrefixOf s.data

/-- Python `s.endswith(suf)`. -/
def pyEndsWith (s suf : String) : Bool :=
  suf.data.isSuffixOf s.data

/-- Python `s[:-n]` for `n > 0`: drop the last `n` characters. -/
def pyDropRight (s : String) (n : Nat) : String :=
  String.mk (s.data.take (s.data.length - n))

/-- Contiguous sublist test: `needle` occurs somewhere in the list. -/
def isInfixCharList (needle : List Char) : List Char → Bool
  | [] => needle.isEmpty
  | c :: rest => needle.isPrefixOf (c :: rest) || isInfixCharList needle rest

/-- Python `needle in hay` for strings: contiguous substring test. -/
def containsSub (hay needle : String) : Bool :=
  isInfixCharList needle.data hay.data

/-- A `pathlib.PurePosixPath`: optional root (`""`, `"/"` or `"//"`) plus the
non-empty, non-`"."` components. -/
structure PPath where
  root : String
  parts : List String
  deriving Repr

/-- Parse a string into a `PurePosixPath`: exactly two leading slashes give
root `"//"`, any other leading slash run gives `"/"`; empty and `"."`
components are collapsed. -/
def parsePPath (s : String) : PPath :=
  let root :=
    if pyStartsWith s "//" && !pyStartsWith s "///" then "//"
    else if pyStartsWith s "/" then "/"
    else ""
  ⟨root, (pySplit s '/').filter (fun p => !(p == "") && !(p == "."))⟩

/-- `PurePosixPath.name`: the final component, `""` if there is none. -/
def ppName (p : PPath) : String :=
  p.parts.getLast?.getD ""

/-- Index of the last `'.'` in a character list (Python `str.rfind('.')`
restricted to the found case). -/
def rfindDot : List Char → Option Nat
  | [] => none
  | c :: rest =>
    match rfindDot rest with
    | some j => some (j + 1)
    | none => if c = '.' then some 0 else none

/-- `PurePosixPath.stem`: the final component without its last suffix; a
leading or trailing dot is not a suffix separator. -/
def ppStem (p : PPath) : String :=
  let name := ppName p
  match rfindDot name.data with
  | none => name
  | some i =>
    if 0 < i && i < name.data.length - 1 then String.mk (name.data.take i)
    else name

/-- `PurePosixPath.parent`: drop the final component; a root-only or empty
path is its own parent. -/
def ppParent (p : PPath) : PPath :=
  match p.parts with
  | [] => p
  | _ :: _ => ⟨p.root, p.parts.dropLast⟩

/-- `PurePosixPath.joinpath`: an absolute right operand replaces the left
operand. -/
def ppJoin (a b : PPath) : PPath :=
  if !(b.root == "") then b else ⟨a.root, a.parts ++ b.parts⟩

/-- `str(PurePosixPath)`: `"."` for the empty relative path, otherwise the
root followed by the components joined with `"/"`. -/
def joinSlash : List String → String
  | [] => ""
  | [x] => x
  | x :: rest => x ++ "/" ++ joinSlash rest

def ppStr (p : PPath) : String :=
  if p.root == "" && p.parts.isEmpty then "." else p.root ++ joinSlash p.parts

/-- Lower-case hexadecimal digit, as used by `json.dumps` unicode escapes. -/
def hexDigit (n : Nat) : Char :=
  Char.ofNat (if n < 10 then 48 + n else 87 + n)

/-- A `\uXXXX` escape for a code unit. -/
def uEscape (n : Nat) : List Char :=
  ['\\', 'u', hexDigit (n / 4096 % 16), hexDigit (n / 256 % 16),
   hexDigit (n / 16 % 16), hexDigit (n % 16)]

/-- How `json.dumps` (defaults: `ensure_ascii=True`) renders one character of
a string. -/
def escapeChar (c : Char) : List Char :=
  if c = '"' then ['\\', '"']
  else if c = '\\' then ['\\', '\\']
  else if c = '\x08' then ['\\', 'b']
  else if c = '\x0c' then ['\\', 'f']
  else if c = '\n' then ['\\', 'n']
  else if c = '\r' then ['\\', 'r']
  else if c = '\t' then ['\\', 't']
  else if 0x20 ≤ c.toNat && c.toNat ≤ 0x7e then [c]
  else if c.toNat ≤ 0xffff then uEscape c.toNat
  else
    uEscape (0xd800 + (c.toNat - 0x10000) / 1024) ++
      uEscape (0xdc00 + (c.toNat - 0x10000) % 1024)

def escapeStr (s : String) : List Char :=
  (s.data.map escapeChar).flatten

/-- `json.dumps` of a string: quoted and escaped. -/
def dumpStr (s : String) : List Char :=
  '"' :: escapeStr s ++ ['"']

mutual

/-- Characters of `json.dumps(v)` with the default separators
(`", "` between items, `": "` after keys). -/
def dumpChars : JVal → List Char
  | .jnull => "null".data
  | .jbool b => if b then "true".data else "false".data
  | .jstr s => dumpStr s
  | .jnum n => (toString n).data
  | .jarr xs => '[' :: dumpArr xs ++ [']']
  | .jobj fs => '\x7b' :: dumpFields fs ++ ['\x7d']
termination_by structural v => v

def dumpArr : List JVal → List Char
  | [] => []
  | [v] => dumpChars v
  | v :: rest => dumpChars v ++ ',' :: ' ' :: dumpArr rest
termination_by structural l => l

def dumpFields : List (String × JVal) → List Char
  | [] => []
  | [(k, v)] => dumpStr k ++ ':' :: ' ' :: dumpChars v
  | (k, v) :: rest =>
    dumpStr k ++ ':' :: ' ' :: dumpChars v ++ ',' :: ' ' :: dumpFields rest
termination_by structural l => l

end

/-- Python `json.dumps(v)`. -/
def dumps (v : JVal) : String :=
  String.mk (dumpChars v)

/-! Key-string constants of `resource_metadata_normalizer.py`. -/

def RESOURCES_KEY : String := "Resources"
def PROPERTIES_KEY : String := "Properties"
def METADATA_KEY : String := "Metadata"
def RESOURCE_CDK_PATH_METADATA_KEY : String := "aws:cdk:path"
def ASSET_PATH_METADATA_KEY : String := "aws:asset:path"
def ASSET_PROPERTY_METADATA_KEY : String := "aws:asset:property"
def IMAGE_ASSET_PROPERTY : String := "Code.ImageUri"
def ASSET_DOCKERFILE_PATH_KEY : String := "aws:asset:dockerfile-path"
def ASSET_DOCKERFILE_BUILD_ARGS_KEY : String := "aws:asset:docker-build-args"
def SAM_RESOURCE_ID_KEY : String := "SamResourceId"
def SAM_IS_NORMALIZED : String := "SamNormalized"
def SAM_METADATA_DOCKERFILE_KEY : String := "Dockerfile"
def SAM_METADATA_DOCKER_CONTEXT_KEY : String := "DockerContext"
def SAM_METADATA_DOCKER_BUILD_ARGS_KEY : String := "DockerBuildArgs"
def ASSET_BUNDLED_METADATA_KEY : String := "aws:asset:is-bundled"
def SAM_METADATA_SKIP_BUILD_KEY : String := "SkipBuild"

/-- The formatted text of the `LOG.info` diagnostic emitted by
`_replace_property` when exactly one of the locator and the path is present
(the spelling `aws:assert:property` is the source's own). -/
def replaceWarning (logical_id : String) : String :=
  "WARNING: Ignoring Metadata for Resource " ++ logical_id ++
    ". Metadata contains only aws:asset:path or aws:assert:property but not both"

/-- Fresh nested singleton dicts built by the `while` loop of
`_replace_property` below the first traversed segment:
`target_dict[key] = \x7b\x7d` followed by descending into the fresh dict. -/
def buildFresh : List String → JVal → List (String × JVal)
  | [], _ => []
  | [k], v => [(k, v)]
  | k :: k2 :: rest, v => [(k, JVal.jobj (buildFresh (k2 :: rest) v))]

/-- Effect of the `while` loop plus final assignment of `_replace_property`
on an existing `Properties` dict: the first segment of a multi-segment
locator is overwritten with a fresh nested dict chain; a single-segment
locator assigns directly.  (`_replace_property` is only reached with a
non-empty key list: Python `str.split` never returns an empty list.) -/
def setNested (props : List (String × JVal)) : List String → JVal → List (String × JVal)
  | [], _ => props
  | [k], v => dset props k v
  | k :: k2 :: rest, v => dset props k (JVal.jobj (buildFresh (k2 :: rest) v))

/-- `ResourceMetadataNormalizer._replace_property`.  Returns the updated
resource together with the emitted diagnostics.  When `Properties` is absent,
`resource.get(PROPERTIES_KEY, \x7b\x7d)` yields a fresh dict that is never
attached to the resource, so all writes into it are silently dropped and the
resource is returned unchanged.  A non-string truthy key (no `.split`) or a
non-dict `Properties` value (no item assignment) raises. -/
def replace_property (property_key property_value : Option JVal)
    (resource : List (String × JVal)) (logical_id : String) :
    Except String (List (String × JVal) × List String) :=
  if otruthy property_key && otruthy property_value then
    match property_key with
    | some (.jstr ks) =>
      let nested_keys := pySplit ks '.'
      match dget resource PROPERTIES_KEY with
      | none => .ok (resource, [])
      | some (.jobj props) =>
        .ok (dset resource PROPERTIES_KEY
              (.jobj (setNested props nested_keys (property_value.getD .jnull))), [])
      | some _ => .error "TypeError: item assignment on non-dict Properties"
    | _ => .error "AttributeError: split called on a non-string asset property"
  else if otruthy property_key || otruthy property_value then
    .ok (resource, [replaceWarning logical_id])
  else
    .ok (resource, [])

/-- `ResourceMetadataNormalizer._extract_image_asset_metadata`.  Note the
source's `Path(metadata.get(ASSET_DOCKERFILE_PATH_KEY), "")`: the `""`
default is an argument of `Path`, not of `.get`, so an absent (or non-string)
dockerfile path reaches `Path` as `None` and raises `TypeError`. -/
def extract_image_asset_metadata (metadata : List (String × JVal)) :
    Except String (List (String × JVal)) :=
  match dgetD metadata ASSET_PATH_METADATA_KEY (.jstr "") with
  | .jstr asset_path_str =>
    match dget metadata ASSET_DOCKERFILE_PATH_KEY with
    | some (.jstr dockerfile_path_str) =>
      let asset_path := parsePPath asset_path_str
      let dockerfile_path := parsePPath dockerfile_path_str
      let dockerfile := ppStem dockerfile_path
      let path_from_asset := ppParent dockerfile_path
      let dockerfile_context := ppStr (ppJoin asset_path path_from_asset)
      .ok [(SAM_METADATA_DOCKERFILE_KEY, .jstr dockerfile),
           (SAM_METADATA_DOCKER_CONTEXT_KEY, .jstr dockerfile_context),
           (SAM_METADATA_DOCKER_BUILD_ARGS_KEY,
             dgetD metadata ASSET_DOCKERFILE_BUILD_ARGS_KEY (.jobj []))]
    | _ =>
      .error "TypeError: argument should be a str or an os.PathLike object, not NoneType"
  | _ => .error "TypeError: argument should be a str or an os.PathLike object"

/-- `ResourceMetadataNormalizer._update_resource_metadata`: assign each
key/value pair into the metadata dict. -/
def update_resource_metadata (metadata updated_values : List (String × JVal)) :
    List (String × JVal) :=
  updated_values.foldl (fun m kv => dset m kv.1 kv.2) metadata

/-- Lines 69-77 of `normalize`: set `SkipBuild: true` iff the `is-bundled`
metadata value is truthy. -/
def skip_build_update (md : List (String × JVal)) : List (String × JVal) :=
  if truthy (dgetD md ASSET_BUNDLED_METADATA_KEY (.jbool false)) then
    dset md SAM_METADATA_SKIP_BUILD_KEY (.jbool true)
  else md

/-- Write the (possibly mutated) metadata dict back into the resource.  When
the resource has no `Metadata` key, `resource.get(METADATA_KEY, \x7b\x7d)`
produced a fresh detached dict, so mutations of it are dropped. -/
def write_metadata (resource md : List (String × JVal)) : Bool → List (String × JVal)
  | true => dset resource METADATA_KEY (.jobj md)
  | false => resource

/-- Line 66-67 of `normalize`: `resource_metadata[SAM_IS_NORMALIZED] = True`
when `asset_path and asset_property` is truthy. -/
def mark_normalized (md : List (String × JVal)) : Bool → List (String × JVal)
  | true => dset md SAM_IS_NORMALIZED (.jbool true)
  | false => md

/-- Body of one iteration of the `for logical_id, resource in
resources.items()` loop of `normalize`, after the resource metadata has been
read (`resource_metadata`, with `attached = false` when the `Metadata` key
was absent and the dict is the detached `.get` default). -/
def normalize_resource_body (logical_id : String)
    (resource resource_metadata : List (String × JVal)) (attached : Bool) :
    Except String (List (String × JVal) × List String) :=
  if truthy (dgetD resource_metadata SAM_IS_NORMALIZED (.jbool false)) then
    .ok (write_metadata resource (skip_build_update resource_metadata) attached, [])
  else
    let asset_property := dget resource_metadata ASSET_PROPERTY_METADATA_KEY
    match
      (if pyEqStr asset_property IMAGE_ASSET_PROPERTY then
        (extract_image_asset_metadata resource_metadata).map
          (fun asset_metadata =>
            (update_resource_metadata resource_metadata asset_metadata,
             some (JVal.jstr (pyLower logical_id))))
      else
        .ok (resource_metadata, dget resource_metadata ASSET_PATH_METADATA_KEY)) with
    | .error e => .error e
    | .ok (md1, asset_path) =>
      match replace_property asset_property asset_path resource logical_id with
      | .error e => .error e
      | .ok (resource1, diags) =>
        let md2 := mark_normalized md1 (otruthy asset_path && otruthy asset_property)
        .ok (write_metadata resource1 (skip_build_update md2) attached, diags)

/-- One iteration of the resource loop of `normalize`: read the `Metadata`
value (raising if it is present but not a dict) and run the body. -/
def normalize_resource (logical_id : String) (resource : List (String × JVal)) :
    Except String (List (String × JVal) × List String) :=
  match dget resource METADATA_KEY with
  | none => normalize_resource_body logical_id resource [] false
  | some (.jobj m) => normalize_resource_body logical_id resource m true
  | some _ => .error "AttributeError: get called on a non-dict Metadata value"

/-- The resource loop of `normalize` over all entries of `Resources`
(raising if a resource value is not a dict), collecting diagnostics. -/
def normalize_resources : List (String × JVal) →
    Except String (List (String × JVal) × List String)
  | [] => .ok ([], [])
  | (logical_id, JVal.jobj r) :: rest =>
    (match normalize_resource logical_id r with
     | .error e => .error e
     | .ok (r1, d) =>
       match normalize_resources rest with
       | .error e => .error e
       | .ok (rest1, drest) => .ok ((logical_id, JVal.jobj r1) :: rest1, d ++ drest))
  | _ :: _ => .error "AttributeError: resource value is not a dict"

/-- The f-string `f'"Ref": "\x7bparameter_name\x7d"'` scanned for in the
serialized resources. -/
def refNeedle (parameter_name : String) : String :=
  "\"Ref\": \"" ++ parameter_name ++ "\""

/-- One iteration of the parameter loop of `normalize`: the guard chain
`parameter_name.startswith("AssetParameters") and "Default" not in
parameter_value and parameter_value.get("Type", "") == "String" and
f-string-ref not in resources_as_string`, then `parameter_value["Default"] =
" "`.  Python `in` on a string parameter value is a substring test, on a list
a membership test, and `.get` on a non-dict raises. -/
def normalize_parameter (resources_as_string parameter_name : String)
    (parameter_value : JVal) : Except String JVal :=
  if pyStartsWith parameter_name "AssetParameters" then
    match parameter_value with
    | .jobj m =>
      if hasKey m "Default" then .ok parameter_value
      else if jvEqStr (dgetD m "Type" (.jstr "")) "String" &&
          !containsSub resources_as_string (refNeedle parameter_name) then
        .ok (.jobj (dset m "Default" (.jstr " ")))
      else .ok parameter_value
    | .jstr s =>
      if containsSub s "Default" then .ok parameter_value
      else .error "AttributeError: get called on a non-dict parameter value"
    | .jarr xs =>
      if xs.any (fun v => jvEqStr v "Default") then .ok parameter_value
      else .error "AttributeError: get called on a non-dict parameter value"
    | _ => .error "TypeError: argument of type is not iterable"
  else .ok parameter_value

/-- The parameter loop of `normalize` over all entries of `Parameters`. -/
def normalize_parameters_pass (resources_as_string : String) :
    List (String × JVal) → Except String (List (String × JVal))
  | [] => .ok []
  | (pname, pval) :: rest =>
    match normalize_parameter resources_as_string pname pval with
    | .error e => .error e
    | .ok v =>
      match normalize_parameters_pass resources_as_string rest with
      | .error e => .error e
      | .ok rest1 => .ok ((pname, v) :: rest1)

/-- `ResourceMetadataNormalizer.normalize(template_dict,
normalize_parameters)`.  The template is mutated in place in the source; here
the updated template dict is returned, together with the diagnostics emitted.
`is_cdk_project` is the external CDK-project detection predicate, called on
the template after the resource loop has mutated it.  `json.dumps` of the
resources is likewise taken after the resource loop.  When `Resources` (resp.
`Parameters`) is absent, the `.get` default is a fresh detached dict, so no
entry is created in the template. -/
def normalize (is_cdk_project : List (String × JVal) → Bool)
    (template_dict : List (String × JVal)) (normalize_parameters : Bool) :
    Except String (List (String × JVal) × List String) :=
  match dgetD template_dict RESOURCES_KEY (.jobj []) with
  | .jobj resources =>
    match normalize_resources resources with
    | .error e => .error e
    | .ok (resources1, diags) =>
      let template1 :=
        if hasKey template_dict RESOURCES_KEY then
          dset template_dict RESOURCES_KEY (.jobj resources1)
        else template_dict
      if normalize_parameters && is_cdk_project template1 then
        let resources_as_string := dumps (.jobj resources1)
        match dgetD template1 "Parameters" (.jobj []) with
        | .jobj parameters =>
          match normalize_parameters_pass resources_as_string parameters with
          | .error e => .error e
          | .ok parameters1 =>
            let template2 :=
              if hasKey template1 "Parameters" then
                dset template1 "Parameters" (.jobj parameters1)
              else template1
            .ok (template2, diags)
        | _ => .error "AttributeError: items called on a non-dict Parameters value"
      else
        .ok (template1, diags)
  | _ => .error "AttributeError: items called on a non-dict Resources value"

/-- Tail of `get_resource_id` from the `aws:cdk:path` lookup on: fall back to
the logical id when the path is absent, not a string, empty, or has fewer
than two `/`-separated segments; otherwise take the second-to-last segment,
stripping the `.NestedStack` suffix when the resource type is
`AWS::CloudFormation::Stack`. -/
def get_resource_id_from_cdk_path (resource_properties resource_metadata :
    List (String × JVal)) (logical_id : String) : String :=
  match dget resource_metadata RESOURCE_CDK_PATH_METADATA_KEY with
  | some (.jstr resource_cdk_path) =>
    if resource_cdk_path == "" then logical_id
    else
      let cdk_path_partitions := pySplit resource_cdk_path '/'
      if cdk_path_partitions.length < 2 then logical_id
      else
        let cdk_resource_id := cdk_path_partitions.getD (cdk_path_partitions.length - 2) ""
        if jvEqStr (dgetD resource_properties "Type" (.jstr ""))
              "AWS::CloudFormation::Stack" &&
            pyEndsWith cdk_resource_id ".NestedStack" then
          pyDropRight cdk_resource_id (".NestedStack".length)
        else cdk_resource_id
  | _ => logical_id

/-- `get_resource_id` after the metadata dict has been read. -/
def get_resource_id_core (resource_properties resource_metadata :
    List (String × JVal)) (logical_id : String) : String :=
  match dget resource_metadata SAM_RESOURCE_ID_KEY with
  | some (.jstr customer_defined_id) =>
    if !(customer_defined_id == "") then customer_defined_id
    else get_resource_id_from_cdk_path resource_properties resource_metadata logical_id
  | _ => get_resource_id_from_cdk_path resource_properties resource_metadata logical_id

/-- `ResourceMetadataNormalizer.get_resource_id(resource_properties,
logical_id)`; raises only when a present `Metadata` value is not a dict. -/
def get_resource_id (resource_properties : List (String × JVal))
    (logical_id : String) : Except String String :=
  match dget resource_properties "Metadata" with
  | none => .ok (get_resource_id_core resource_properties [] logical_id)
  | some (.jobj m) => .ok (get_resource_id_core resource_properties m logical_id)
  | some _ => .error "AttributeError: get called on a non-dict Metadata value"

/-- Follow a dot-split locator through nested `Properties` dicts: the value
stored under the final segment, descending through dicts at the intermediate
segments. -/
def getNested (props : List (String × JVal)) : List String → Option JVal
  | [] => some (.jobj props)
  | [k] => dget props k
  | k :: k2 :: rest =>
    match dget props k with
    | some (.jobj m) => getNested m (k2 :: rest)
    | _ => none

/-- A character that `json.dumps` renders as itself (printable ASCII other
than quote and backslash). -/
def asciiPlain (c : Char) : Bool :=
  (0x20 ≤ c.toNat && c.toNat ≤ 0x7e) && !(c = '"') && !(c = '\\')

/-- A string that `json.dumps` renders verbatim between its quotes;
`AssetParameters…` parameter names are of this form. -/
def cleanStr (s : String) : Bool :=
  s.data.all asciiPlain

mutual

/-- A `\x7b"Ref": "<parameter_name>"\x7d`-style reference occurs somewhere in
the document value: some object in the tree has an entry with key `"Ref"`
and the parameter name as string value. -/
def occursRef (parameter_name : String) : JVal → Bool
  | .jnull => false
  | .jbool _ => false
  | .jstr _ => false
  | .jnum _ => false
  | .jarr xs => occursRefArr parameter_name xs
  | .jobj fs => occursRefFields parameter_name fs
termination_by structural v => v

def occursRefArr (parameter_name : String) : List JVal → Bool
  | [] => false
  | v :: rest => occursRef parameter_name v || occursRefArr parameter_name rest
termination_by structural l => l

def occursRefFields (parameter_name : String) : List (String × JVal) → Bool
  | [] => false
  | (k, v) :: rest =>
    (k == "Ref" && jvEqStr v parameter_name) || occursRef parameter_name v ||
      occursRefFields parameter_name rest
termination_by structural l => l

end

/-! Concrete templates used as counterexamples, failing inputs and witness
inputs for the individual claims, together with the corresponding
`normalize` outputs. -/

/-- Metadata with both asset locator `Code.S3Key` and asset path
`assets/fn.zip`, not marked normalized. -/
def s3Md : List (String × JVal) :=
  [("aws:asset:path", .jstr "assets/fn.zip"),
   ("aws:asset:property", .jstr "Code.S3Key")]

/-- A resource with both asset locator and asset path but no `Properties`
key. -/
def noPropsFn : List (String × JVal) :=
  [("Type", .jstr "AWS::Lambda::Function"), ("Metadata", .jobj s3Md)]

def noPropsTemplate : List (String × JVal) :=
  [("Resources", .jobj [("Fn", .jobj noPropsFn)])]

/-- What `normalize` makes of the `noPropsTemplate` resource: the metadata is
marked normalized but no `Properties` entry is created. -/
def noPropsFnOut : List (String × JVal) :=
  [("Type", .jstr "AWS::Lambda::Function"),
   ("Metadata", .jobj [("aws:asset:path", .jstr "assets/fn.zip"),
                       ("aws:asset:property", .jstr "Code.S3Key"),
                       ("SamNormalized", .jbool true)])]

/-- An existing `Properties` mapping whose `Code` entry has a sibling key
`S3Bucket`. -/
def s3Props : List (String × JVal) :=
  [("Code", .jobj [("S3Bucket", .jstr "b"), ("S3Key", .jstr "old")]),
   ("Handler", .jstr "h")]

/-- A resource with locator `Code.S3Key`, path `assets/fn.zip` and the
`Properties` mapping `s3Props`. -/
def s3Fn : List (String × JVal) :=
  [("Type", .jstr "AWS::Lambda::Function"),
   ("Properties", .jobj s3Props),
   ("Metadata", .jobj s3Md)]

def s3Template : List (String × JVal) :=
  [("Resources", .jobj [("Fn", .jobj s3Fn)])]

/-- What `normalize` makes of `s3Template`: `Properties.Code` is overwritten
with a fresh dict holding only `S3Key`, and the metadata is marked. -/
def s3Output : List (String × JVal) :=
  [("Resources", .jobj [("Fn", .jobj
    [("Type", .jstr "AWS::Lambda::Function"),
     ("Properties", .jobj
       [("Code", .jobj [("S3Key", .jstr "assets/fn.zip")]),
        ("Handler", .jstr "h")]),
     ("Metadata", .jobj [("aws:asset:path", .jstr "assets/fn.zip"),
                         ("aws:asset:property", .jstr "Code.S3Key"),
                         ("SamNormalized", .jbool true)])])])]

/-- An image-asset resource whose metadata lacks the
`aws:asset:dockerfile-path` key. -/
def missingDockerfileTemplate : List (String × JVal) :=
  [("Resources", .jobj [("Fn", .jobj
    [("Properties", .jobj []),
     ("Metadata", .jobj [("aws:asset:path", .jstr "src/"),
                         ("aws:asset:property", .jstr "Code.ImageUri")])])])]

/-- Metadata of the spec's image-asset example: locator `Code.ImageUri`,
source path `src/`, dockerfile path `src/docker/Dockerfile`, build args
`A=1`. -/
def imageMd : List (String × JVal) :=
  [("aws:asset:path", .jstr "src/"),
   ("aws:asset:property", .jstr "Code.ImageUri"),
   ("aws:asset:dockerfile-path", .jstr "src/docker/Dockerfile"),
   ("aws:asset:docker-build-args", .jobj [("A", .jstr "1")])]

/-- The image-asset resource, with an (empty) `Properties` mapping. -/
def imageFn : List (String × JVal) :=
  [("Properties", .jobj []), ("Metadata", .jobj imageMd)]

def imageTemplate (logical_id : String) : List (String × JVal) :=
  [("Resources", .jobj [(logical_id, .jobj imageFn)])]

/-- The metadata after normalization: the three derived docker values are
merged in and the normalized marker is set. -/
def imageMdOut : List (String × JVal) :=
  [("aws:asset:path", .jstr "src/"),
   ("aws:asset:property", .jstr "Code.ImageUri"),
   ("aws:asset:dockerfile-path", .jstr "src/docker/Dockerfile"),
   ("aws:asset:docker-build-args", .jobj [("A", .jstr "1")]),
   ("Dockerfile", .jstr "Dockerfile"),
   ("DockerContext", .jstr "src/src/docker"),
   ("DockerBuildArgs", .jobj [("A", .jstr "1")]),
   ("SamNormalized", .jbool true)]

/-- The image-asset resource after normalization. -/
def imageFnOut (logical_id : String) : List (String × JVal) :=
  [("Properties", .jobj [("Code", .jobj [("ImageUri", .jstr (pyLower logical_id))])]),
   ("Metadata", .jobj imageMdOut)]

/-- What `normalize` makes of `imageTemplate`. -/
def imageOutput (logical_id : String) : List (String × JVal) :=
  [("Resources", .jobj [(logical_id, .jobj (imageFnOut logical_id))])]

/-- Metadata with a locator but no asset path. -/
def locatorOnlyMd : List (String × JVal) :=
  [("aws:asset:property", .jstr "Code.S3Key")]

/-- A resource with a locator but no asset path. -/
def locatorOnlyFn : List (String × JVal) :=
  [("Properties", .jobj [("X", .jstr "y")]),
   ("Metadata", .jobj locatorOnlyMd)]

def locatorOnlyTemplate : List (String × JVal) :=
  [("Resources", .jobj [("Fn", .jobj locatorOnlyFn)])]

/-- A CDK-style template with three reserved-prefix parameters: one eligible
for defaulting, one referenced from `Resources`, one of non-`String`
type. -/
def paramsTemplate : List (String × JVal) :=
  [("Resources", .jobj [("Fn", .jobj [("Type", .jstr "X"),
      ("Properties", .jobj [("R", .jobj [("Ref", .jstr "AssetParametersBar")])])])]),
   ("Parameters", .jobj
     [("AssetParametersFoo", .jobj [("Type", .jstr "String")]),
      ("AssetParametersBar", .jobj [("Type", .jstr "String")]),
      ("AssetParametersBaz", .jobj [("Type", .jstr "Number")])])]

/-- What `normalize(·, true)` makes of `paramsTemplate`: only the eligible
`AssetParametersFoo` receives `Default = " "`. -/
def paramsOutput : List (String × JVal) :=
  [("Resources", .jobj [("Fn", .jobj [("Type", .jstr "X"),
      ("Properties", .jobj [("R", .jobj [("Ref", .jstr "AssetParametersBar")])])])]),
   ("Parameters", .jobj
     [("AssetParametersFoo", .jobj [("Type", .jstr "String"), ("Default", .jstr " ")]),
      ("AssetParametersBar", .jobj [("Type", .jstr "String")]),
      ("AssetParametersBaz", .jobj [("Type", .jstr "Number")])])]

/-- A resource carrying a customer-defined `SamResourceId` and a CDK path. -/
def customerIdResource : List (String × JVal) :=
  [("Metadata", .jobj [("SamResourceId", .jstr "my-id"),
                       ("aws:cdk:path", .jstr "StackA/FuncB/Resource")])]

/-- A resource carrying only a CDK path. -/
def cdkPathResource : List (String × JVal) :=
  [("Metadata", .jobj [("aws:cdk:path", .jstr "StackA/FuncB/Resource")])]

/-- A nested-stack resource: CDK path with the `.NestedStack` marker and the
`AWS::CloudFormation::Stack` type. -/
def nestedStackResource : List (String × JVal) :=
  [("Type", .jstr "AWS::CloudFormation::Stack"),
   ("Metadata", .jobj [("aws:cdk:path", .jstr "StackA/NestedStackC.NestedStack/Resource")])]

/-- The same CDK path with the `.NestedStack` marker but without the
`AWS::CloudFormation::Stack` type. -/
def nonStackNestedResource : List (String × JVal) :=
  [("Metadata", .jobj [("aws:cdk:path", .jstr "StackA/NestedStackC.NestedStack/Resource")])]

/-- A resource whose CDK path has an empty second-to-last segment. -/
def emptySegmentResource : List (String × JVal) :=
  [("Metadata", .jobj [("aws:cdk:path", .jstr "/Resource")])]

/-! Dictionary lemmas. -/

theorem dget_dset_self (m : List (String × JVal)) (k : String) (v : JVal) :
    dget (dset m k v) k = some v := by
  induction m with
  | nil => simp [dget, dset]
  | cons kv rest ih =>
    obtain ⟨a, w⟩ := kv
    by_cases h : a = k
    · simp [dset, dget, h]
    · simp [dset, dget, h, ih]

theorem dget_dset_ne (m : List (String × JVal)) (k k' : String) (v : JVal)
    (h : k' ≠ k) : dget (dset m k v) k' = dget m k' := by
  induction m with
  | nil => simp [dget, dset, Ne.symm h]
  | cons kv rest ih =>
    obtain ⟨a, w⟩ := kv
    by_cases ha : a = k
    · subst ha
      simp [dset, dget, Ne.symm h]
    · simp [dset, dget, ha, ih]

theorem hasKey_of_dget {m : List (String × JVal)} {k : String} {v : JVal}
    (h : dget m k = some v) : hasKey m k = true := by
  simp [hasKey, h]

/-- `skip_build_update` touches only the `SkipBuild` key. -/
theorem dget_skip_build_update (md : List (String × JVal)) (k : String)
    (h : k ≠ SAM_METADATA_SKIP_BUILD_KEY) :
    dget (skip_build_update md) k = dget md k := by
  unfold skip_build_update
  split
  · exact dget_dset_ne md SAM_METADATA_SKIP_BUILD_KEY k (.jbool true) h
  · rfl

/-- The metadata produced by `_extract_image_asset_metadata` holds exactly
the three docker keys, so merging it touches no other key. -/
theorem dget_update_extract (md am : List (String × JVal))
    (hex : extract_image_asset_metadata md = .ok am) (k : String)
    (h1 : k ≠ SAM_METADATA_DOCKERFILE_KEY)
    (h2 : k ≠ SAM_METADATA_DOCKER_CONTEXT_KEY)
    (h3 : k ≠ SAM_METADATA_DOCKER_BUILD_ARGS_KEY) :
    dget (update_resource_metadata md am) k = dget md k := by
  unfold extract_image_asset_metadata at hex
  split at hex
  · split at hex
    · simp only [Except.ok.injEq] at hex
      subst hex
      simp only [update_resource_metadata, List.foldl]
      rw [dget_dset_ne _ _ _ _ h3, dget_dset_ne _ _ _ _ h2, dget_dset_ne _ _ _ _ h1]
    · exact absurd hex (by simp)
  · exact absurd hex (by simp)

/-! Nested-path lemmas. -/

theorem getNested_buildFresh (v : JVal) :
    ∀ ks : List String, ks ≠ [] → getNested (buildFresh ks v) ks = some v
  | [k], _ => by simp [buildFresh, getNested, dget]
  | k :: k2 :: rest, _ => by
    simp only [buildFresh, getNested, dget, if_pos rfl]
    exact getNested_buildFresh v (k2 :: rest) (by simp)

theorem getNested_setNested (props : List (String × JVal)) (v : JVal) :
    ∀ ks : List String, ks ≠ [] → getNested (setNested props ks v) ks = some v
  | [k], _ => by simp [setNested, getNested, dget_dset_self]
  | k :: k2 :: rest, _ => by
    simp only [setNested, getNested, dget_dset_self]
    exact getNested_buildFresh v (k2 :: rest) (by simp)

/-- The fresh dict chain below the first segment is a singleton. -/
theorem buildFresh_cons (k2 : String) (rest : List String) (v : JVal) :
    ∃ w, buildFresh (k2 :: rest) v = [(k2, w)] := by
  cases rest with
  | nil => exact ⟨v, rfl⟩
  | cons k3 rest' => exact ⟨.jobj (buildFresh (k3 :: rest') v), rfl⟩

/-! Split lemmas. -/

theorem splitCharList_ne_nil (sep : Char) (l : List Char) :
    splitCharList sep l ≠ [] := by
  induction l with
  | nil => simp [splitCharList]
  | cons c rest ih =>
    unfold splitCharList
    by_cases h : c = sep
    · simp [h]
    · simp only [h, if_false]
      split
      · simp
      · simp

theorem pySplit_ne_nil (s : String) (sep : Char) : pySplit s sep ≠ [] := by
  unfold pySplit
  intro h
  exact splitCharList_ne_nil sep s.data (List.map_eq_nil_iff.mp h)

/-! Inversion of the resource loop: the output list is the element-wise image
of the input list under `normalize_resource`, and every per-resource
diagnostic appears in the collected diagnostics. -/

theorem normalize_resources_spec :
    ∀ (l l1 : List (String × JVal)) (ds : List String),
      normalize_resources l = .ok (l1, ds) →
      l1.length = l.length ∧
      ∀ (i : Nat) (lid : String) (v : JVal), l[i]? = some (lid, v) →
        ∃ r r1 d, v = JVal.jobj r ∧ normalize_resource lid r = .ok (r1, d) ∧
          l1[i]? = some (lid, JVal.jobj r1) ∧ ∀ x ∈ d, x ∈ ds := by
  intro l
  induction l with
  | nil =>
    intro l1 ds h
    simp only [normalize_resources, Except.ok.injEq, Prod.mk.injEq] at h
    obtain ⟨h1, h2⟩ := h
    subst h1
    constructor
    · rfl
    · intro i lid v hv
      simp at hv
  | cons hd tl ih =>
    intro l1 ds h
    obtain ⟨lid0, v0⟩ := hd
    cases v0 with
    | jobj r =>
      simp only [normalize_resources] at h
      cases hr : normalize_resource lid0 r with
      | error e => rw [hr] at h; exact absurd h (by simp)
      | ok p =>
        obtain ⟨r1, d⟩ := p
        rw [hr] at h
        cases htl : normalize_resources tl with
        | error e => rw [htl] at h; exact absurd h (by simp)
        | ok q =>
          obtain ⟨rest1, drest⟩ := q
          rw [htl] at h
          simp only [Except.ok.injEq, Prod.mk.injEq] at h
          obtain ⟨h1, h2⟩ := h
          subst h1
          subst h2
          obtain ⟨ihlen, ihidx⟩ := ih rest1 drest htl
          constructor
          · simp [ihlen]
          · intro i lid v hv
            cases i with
            | zero =>
              simp only [List.getElem?_cons_zero, Option.some.injEq, Prod.mk.injEq] at hv
              obtain ⟨hlid, hval⟩ := hv
              subst hlid
              subst hval
              exact ⟨r, r1, d, rfl, hr, by simp, fun x hx => by
                simp only [List.mem_append]
                exact Or.inl hx⟩
            | succ j =>
              simp only [List.getElem?_cons_succ] at hv
              obtain ⟨r', r1', d', hval, hnr, hidx, hmem⟩ := ihidx j lid v hv
              exact ⟨r', r1', d', hval, hnr, by simpa using hidx, fun x hx => by
                simp only [List.mem_append]
                exact Or.inr (hmem x hx)⟩
    | jnull => simp [normalize_resources] at h
    | jbool b => simp [normalize_resources] at h
    | jstr s => simp [normalize_resources] at h
    | jnum n => simp [normalize_resources] at h
    | jarr xs => simp [normalize_resources] at h

/-- Inversion of `normalize` when the template has a `Resources` mapping:
the output template's `Resources` is the image of the input list under the
resource loop, and the diagnostics are the loop's diagnostics. -/
theorem normalize_ok_resources (is_cdk : List (String × JVal) → Bool) (np : Bool)
    (t0 t' : List (String × JVal)) (ds : List String) (l0 : List (String × JVal))
    (hres : dget t0 RESOURCES_KEY = some (.jobj l0))
    (hok : normalize is_cdk t0 np = .ok (t', ds)) :
    ∃ l1, normalize_resources l0 = .ok (l1, ds) ∧
      dget t' RESOURCES_KEY = some (.jobj l1) := by
  unfold normalize at hok
  rw [dgetD, hres] at hok
  simp only [Option.getD_some] at hok
  cases hnr : normalize_resources l0 with
  | error e => rw [hnr] at hok; exact absurd hok (by simp)
  | ok p =>
    obtain ⟨l1, d⟩ := p
    rw [hnr] at hok
    simp only [hasKey_of_dget hres, if_true] at hok
    refine ⟨l1, ?_⟩
    cases hc : np && is_cdk (dset t0 RESOURCES_KEY (.jobj l1)) with
    | false =>
      rw [hc] at hok
      simp only [Bool.false_eq_true, if_false, Except.ok.injEq, Prod.mk.injEq] at hok
      obtain ⟨h1, h2⟩ := hok
      refine ⟨by rw [h2], ?_⟩
      rw [← h1]
      exact dget_dset_self t0 RESOURCES_KEY (.jobj l1)
    | true =>
      rw [hc] at hok
      simp only [if_true] at hok
      cases hp : dgetD (dset t0 RESOURCES_KEY (.jobj l1)) "Parameters" (.jobj []) with
      | jobj ps =>
        rw [hp] at hok
        simp only [Except.ok.injEq] at hok
        cases hpp : normalize_parameters_pass (dumps (.jobj l1)) ps with
        | error e => rw [hpp] at hok; exact absurd hok (by simp)
        | ok ps1 =>
          rw [hpp] at hok
          simp only [Except.ok.injEq, Prod.mk.injEq] at hok
          obtain ⟨h1, h2⟩ := hok
          refine ⟨by rw [h2], ?_⟩
          rw [← h1]
          by_cases hk : hasKey (dset t0 RESOURCES_KEY (.jobj l1)) "Parameters" = true
          · simp only [hk, if_true]
            rw [dget_dset_ne _ "Parameters" RESOURCES_KEY (.jobj ps1) (by decide)]
            exact dget_dset_self t0 RESOURCES_KEY (.jobj l1)
          · simp only [hk, if_false]
            exact dget_dset_self t0 RESOURCES_KEY (.jobj l1)
      | jnull => rw [hp] at hok; exact absurd hok (by simp)
      | jbool b => rw [hp] at hok; exact absurd hok (by simp)
      | jstr s => rw [hp] at hok; exact absurd hok (by simp)
      | jnum n => rw [hp] at hok; exact absurd hok (by simp)
      | jarr xs => rw [hp] at hok; exact absurd hok (by simp)

/-! Lemmas about `replace_property`. -/

/-- Shape of a successful `_replace_property` call when both the locator and
the value are truthy: no diagnostic, the locator is a string, and either
`Properties` was absent (write dropped) or its dict got the nested
assignment. -/
theorem replace_property_ok_shape (pk pv : Option JVal) (r res1 : List (String × JVal))
    (lid : String) (dgs : List String)
    (ht : (otruthy pk && otruthy pv) = true)
    (h : replace_property pk pv r lid = .ok (res1, dgs)) :
    dgs = [] ∧ ∃ s, pk = some (.jstr s) ∧
      ((dget r PROPERTIES_KEY = none ∧ res1 = r) ∨
       (∃ props, dget r PROPERTIES_KEY = some (.jobj props) ∧
          res1 = dset r PROPERTIES_KEY
            (.jobj (setNested props (pySplit s '.') (pv.getD .jnull))))) := by
  unfold replace_property at h
  rw [ht] at h
  simp only [if_true] at h
  cases pk with
  | none => simp [otruthy] at ht
  | some apv =>
    cases apv with
    | jstr s =>
      cases hpr : dget r PROPERTIES_KEY with
      | none =>
        rw [hpr] at h
        simp only [Except.ok.injEq, Prod.mk.injEq] at h
        obtain ⟨h1, h2⟩ := h
        exact ⟨h2.symm, s, rfl, Or.inl ⟨rfl, h1.symm⟩⟩
      | some pw =>
        cases pw with
        | jobj props =>
          rw [hpr] at h
          simp only [Except.ok.injEq, Prod.mk.injEq] at h
          obtain ⟨h1, h2⟩ := h
          exact ⟨h2.symm, s, rfl, Or.inr ⟨props, rfl, h1.symm⟩⟩
        | jnull => rw [hpr] at h; exact absurd h (by simp)
        | jbool b => rw [hpr] at h; exact absurd h (by simp)
        | jstr t => rw [hpr] at h; exact absurd h (by simp)
        | jnum n => rw [hpr] at h; exact absurd h (by simp)
        | jarr xs => rw [hpr] at h; exact absurd h (by simp)
    | jnull => exact absurd h (by simp)
    | jbool b => exact absurd h (by simp)
    | jnum n => exact absurd h (by simp)
    | jarr xs => exact absurd h (by simp)
    | jobj fs => exact absurd h (by simp)

/-- With exactly one of the locator and the value truthy, `_replace_property`
leaves the resource unchanged and emits exactly the one warning. -/
theorem replace_property_xor (pk pv : Option JVal) (r : List (String × JVal))
    (lid : String) (hx : (otruthy pk != otruthy pv) = true) :
    replace_property pk pv r lid = .ok (r, [replaceWarning lid]) := by
  unfold replace_property
  cases h1 : otruthy pk with
  | true =>
    cases h2 : otruthy pv with
    | true => rw [h1, h2] at hx; simp at hx
    | false => simp [h1, h2]
  | false =>
    cases h2 : otruthy pv with
    | true => simp [h1, h2]
    | false => rw [h1, h2] at hx; simp at hx

/-! Per-resource lemmas about `normalize_resource`. -/

/-- A successful `normalize_resource` on an unmarked resource whose metadata
has a truthy locator and a truthy asset path (the lower-cased logical id in
the image case): the locator is a string, no diagnostic is emitted, the
metadata is marked normalized, and `Properties` receives the nested
assignment when it exists (and stays absent when absent). -/
theorem normalize_resource_both (lid : String) (r r1 md : List (String × JVal))
    (d : List String) (ap pv : JVal)
    (hmd : dget r METADATA_KEY = some (.jobj md))
    (hnn : truthy (dgetD md SAM_IS_NORMALIZED (.jbool false)) = false)
    (hap : dget md ASSET_PROPERTY_METADATA_KEY = some ap)
    (hapt : truthy ap = true)
    (hpath : (if pyEqStr (some ap) IMAGE_ASSET_PROPERTY then some (JVal.jstr (pyLower lid))
              else dget md ASSET_PATH_METADATA_KEY) = some pv)
    (hpvt : truthy pv = true)
    (hok : normalize_resource lid r = .ok (r1, d)) :
    ∃ s md3, ap = JVal.jstr s ∧ d = [] ∧
      dget r1 METADATA_KEY = some (.jobj md3) ∧
      dget md3 SAM_IS_NORMALIZED = some (.jbool true) ∧
      ((dget r PROPERTIES_KEY = none ∧ dget r1 PROPERTIES_KEY = none) ∨
       (∃ props, dget r PROPERTIES_KEY = some (.jobj props) ∧
          dget r1 PROPERTIES_KEY =
            some (.jobj (setNested props (pySplit s '.') pv)))) := by
  unfold normalize_resource at hok
  rw [hmd] at hok
  simp only [] at hok
  unfold normalize_resource_body at hok
  rw [hnn] at hok
  simp only [Bool.false_eq_true, if_false, hap] at hok
  have htr : (otruthy (some ap) && otruthy (some pv)) = true := by
    simp [otruthy, hapt, hpvt]
  have htr2 : (otruthy (some pv) && otruthy (some ap)) = true := by
    simp [otruthy, hapt, hpvt]
  cases hipe : pyEqStr (some ap) IMAGE_ASSET_PROPERTY with
  | true =>
    rw [hipe] at hok
    simp only [if_true] at hok
    rw [hipe] at hpath
    simp only [if_true, Option.some.injEq] at hpath
    rw [hpath] at hok
    cases hex : extract_image_asset_metadata md with
    | error e => rw [hex] at hok; exact absurd hok (by simp [Except.map])
    | ok am =>
      rw [hex] at hok
      simp only [Except.map] at hok
      cases hrp : replace_property (some ap) (some pv) r lid with
      | error e => rw [hrp] at hok; exact absurd hok (by simp)
      | ok q =>
        obtain ⟨resource1, diags⟩ := q
        rw [hrp] at hok
        obtain ⟨hdgs, s, hpk, hshape⟩ :=
          replace_property_ok_shape (some ap) (some pv) r resource1 lid diags htr hrp
        rw [htr2] at hok
        simp only [mark_normalized, write_metadata, Except.ok.injEq, Prod.mk.injEq] at hok
        obtain ⟨h1, h2⟩ := hok
        refine ⟨s, skip_build_update (dset (update_resource_metadata md am)
          SAM_IS_NORMALIZED (.jbool true)), by simpa using hpk, by rw [← h2, hdgs], ?_, ?_, ?_⟩
        · rw [← h1]
          exact dget_dset_self resource1 METADATA_KEY _
        · rw [dget_skip_build_update _ _ (by decide)]
          exact dget_dset_self _ SAM_IS_NORMALIZED _
        · cases hshape with
          | inl hc =>
            obtain ⟨hpr, hre⟩ := hc
            refine Or.inl ⟨hpr, ?_⟩
            rw [← h1, dget_dset_ne _ METADATA_KEY PROPERTIES_KEY _ (by decide), hre, hpr]
          | inr hc =>
            obtain ⟨props, hpr, hre⟩ := hc
            refine Or.inr ⟨props, hpr, ?_⟩
            rw [← h1, dget_dset_ne _ METADATA_KEY PROPERTIES_KEY _ (by decide), hre,
              dget_dset_self r PROPERTIES_KEY _]
            simp
  | false =>
    rw [hipe] at hok
    simp only [Bool.false_eq_true, if_false] at hok
    rw [hipe] at hpath
    simp only [Bool.false_eq_true, if_false] at hpath
    rw [hpath] at hok
    cases hrp : replace_property (some ap) (some pv) r lid with
    | error e => rw [hrp] at hok; exact absurd hok (by simp)
    | ok q =>
      obtain ⟨resource1, diags⟩ := q
      rw [hrp] at hok
      obtain ⟨hdgs, s, hpk, hshape⟩ :=
        replace_property_ok_shape (some ap) (some pv) r resource1 lid diags htr hrp
      rw [htr2] at hok
      simp only [mark_normalized, write_metadata, Except.ok.injEq, Prod.mk.injEq] at hok
      obtain ⟨h1, h2⟩ := hok
      refine ⟨s, skip_build_update (dset md SAM_IS_NORMALIZED (.jbool true)),
        by simpa using hpk, by rw [← h2, hdgs], ?_, ?_, ?_⟩
      · rw [← h1]
        exact dget_dset_self resource1 METADATA_KEY _
      · rw [dget_skip_build_update _ _ (by decide)]
        exact dget_dset_self _ SAM_IS_NORMALIZED _
      · cases hshape with
        | inl hc =>
          obtain ⟨hpr, hre⟩ := hc
          refine Or.inl ⟨hpr, ?_⟩
          rw [← h1, dget_dset_ne _ METADATA_KEY PROPERTIES_KEY _ (by decide), hre, hpr]
        | inr hc =>
          obtain ⟨props, hpr, hre⟩ := hc
          refine Or.inr ⟨props, hpr, ?_⟩
          rw [← h1, dget_dset_ne _ METADATA_KEY PROPERTIES_KEY _ (by decide), hre,
            dget_dset_self r PROPERTIES_KEY _]
          simp

/-- A resource whose metadata is already marked normalized is skipped by the
asset rewrite: only the skip-build pass may touch its metadata, and its
`Properties` are untouched. -/
theorem normalize_resource_marked (lid : String) (r md : List (String × JVal))
    (hmd : dget r METADATA_KEY = some (.jobj md))
    (hn : truthy (dgetD md SAM_IS_NORMALIZED (.jbool false)) = true) :
    ∃ r1, normalize_resource lid r = .ok (r1, []) ∧
      dget r1 PROPERTIES_KEY = dget r PROPERTIES_KEY := by
  unfold normalize_resource
  rw [hmd]
  simp only []
  unfold normalize_resource_body
  rw [hn]
  simp only [if_true, write_metadata]
  exact ⟨_, rfl, dget_dset_ne _ METADATA_KEY PROPERTIES_KEY _ (by decide)⟩

/-- A successful `normalize_resource` on an unmarked resource where exactly
one of the locator and the (post-image-substitution) asset path is truthy:
the resource's `Properties` are unchanged, exactly the one warning diagnostic
is emitted, and the metadata is not marked normalized. -/
theorem normalize_resource_xor (lid : String) (r r1 md : List (String × JVal))
    (d : List String) (apo po : Option JVal)
    (hmd : dget r METADATA_KEY = some (.jobj md))
    (hnn : truthy (dgetD md SAM_IS_NORMALIZED (.jbool false)) = false)
    (hap : dget md ASSET_PROPERTY_METADATA_KEY = apo)
    (hpath : (if pyEqStr apo IMAGE_ASSET_PROPERTY then some (JVal.jstr (pyLower lid))
              else dget md ASSET_PATH_METADATA_KEY) = po)
    (hx : (otruthy apo != otruthy po) = true)
    (hok : normalize_resource lid r = .ok (r1, d)) :
    d = [replaceWarning lid] ∧
    dget r1 PROPERTIES_KEY = dget r PROPERTIES_KEY ∧
    ∃ md3, dget r1 METADATA_KEY = some (.jobj md3) ∧
      truthy (dgetD md3 SAM_IS_NORMALIZED (.jbool false)) = false := by
  unfold normalize_resource at hok
  rw [hmd] at hok
  simp only [] at hok
  unfold normalize_resource_body at hok
  rw [hnn] at hok
  simp only [Bool.false_eq_true, if_false, hap] at hok
  have hmark : (otruthy po && otruthy apo) = false := by
    cases h1 : otruthy apo <;> cases h2 : otruthy po <;>
      simp [h1, h2] at hx ⊢
  cases hipe : pyEqStr apo IMAGE_ASSET_PROPERTY with
  | true =>
    rw [hipe] at hok
    simp only [if_true] at hok
    rw [hipe] at hpath
    simp only [if_true] at hpath
    cases hex : extract_image_asset_metadata md with
    | error e => rw [hex] at hok; exact absurd hok (by simp [Except.map])
    | ok am =>
      rw [hex] at hok
      simp only [Except.map] at hok
      rw [hpath, replace_property_xor apo po r lid hx, hmark] at hok
      simp only [mark_normalized, write_metadata, Except.ok.injEq, Prod.mk.injEq] at hok
      obtain ⟨h1, h2⟩ := hok
      refine ⟨h2.symm, ?_, ?_⟩
      · rw [← h1]
        exact dget_dset_ne _ METADATA_KEY PROPERTIES_KEY _ (by decide)
      · refine ⟨skip_build_update (update_resource_metadata md am), ?_, ?_⟩
        · rw [← h1]
          exact dget_dset_self r METADATA_KEY _
        · rw [dgetD, dget_skip_build_update _ _ (by decide),
            dget_update_extract md am hex _ (by decide) (by decide) (by decide)]
          rw [dgetD] at hnn
          exact hnn
  | false =>
    rw [hipe] at hok
    simp only [Bool.false_eq_true, if_false] at hok
    rw [hipe] at hpath
    simp only [Bool.false_eq_true, if_false] at hpath
    rw [hpath, replace_property_xor apo po r lid hx, hmark] at hok
    simp only [mark_normalized, write_metadata, Except.ok.injEq, Prod.mk.injEq] at hok
    obtain ⟨h1, h2⟩ := hok
    refine ⟨h2.symm, ?_, ?_⟩
    · rw [← h1]
      exact dget_dset_ne _ METADATA_KEY PROPERTIES_KEY _ (by decide)
    · refine ⟨skip_build_update md, ?_, ?_⟩
      · rw [← h1]
        exact dget_dset_self r METADATA_KEY _
      · rw [dgetD, dget_skip_build_update _ _ (by decide)]
        rw [dgetD] at hnn
        exact hnn

/-! Claim C1. -/

/-- C1 counterexample: for a resource that has both a non-empty locator
(`Code.S3Key`) and a non-empty asset path (`assets/fn.zip`) and is not marked
normalized, but has no `Properties` key, `normalize` returns successfully yet
the resulting resource still has no `Properties` mapping at all — the write
went into the detached `resource.get(PROPERTIES_KEY, \x7b\x7d)` default —
so following the locator segments through `Properties` cannot reach the
asset path value, contradicting the claim's "created if absent". -/
theorem C1_counterexample :
    normalize (fun _ => false) noPropsTemplate false =
      .ok ([("Resources", .jobj [("Fn", .jobj noPropsFnOut)])], []) ∧
    dget noPropsFnOut PROPERTIES_KEY = none ∧
    dget s3Md ASSET_PROPERTY_METADATA_KEY = some (.jstr "Code.S3Key") ∧
    dget s3Md ASSET_PATH_METADATA_KEY = some (.jstr "assets/fn.zip") ∧
    truthy (dgetD s3Md SAM_IS_NORMALIZED (.jbool false)) = false :=
  ⟨rfl, rfl, rfl, rfl, rfl⟩

/-- C1 (amended): for every resource of the template whose metadata is not
marked normalized and has both a non-empty (string) asset target locator and
a non-empty asset path — the lower-cased logical id when the locator equals
`Code.ImageUri` — and which already has a `Properties` mapping, after
`normalize` returns, following the dot-split locator segments through the
resulting resource's `Properties` mapping reaches the asset path value
stored under the final segment.  (Amended from the original claim: the
`Properties` mapping must already exist; when it is absent the source writes
into a detached dict and no `Properties` entry is created.) -/
theorem C1_property_substitution (is_cdk : List (String × JVal) → Bool)
    (np : Bool) (t0 t' : List (String × JVal)) (ds : List String)
    (l0 : List (String × JVal)) (i : Nat) (lid : String)
    (r md props : List (String × JVal)) (ap pv : JVal)
    (hok : normalize is_cdk t0 np = .ok (t', ds))
    (hres : dget t0 RESOURCES_KEY = some (.jobj l0))
    (hi : l0[i]? = some (lid, .jobj r))
    (hmd : dget r METADATA_KEY = some (.jobj md))
    (hnn : truthy (dgetD md SAM_IS_NORMALIZED (.jbool false)) = false)
    (hap : dget md ASSET_PROPERTY_METADATA_KEY = some ap)
    (hapt : truthy ap = true)
    (hpath : (if pyEqStr (some ap) IMAGE_ASSET_PROPERTY then
        some (JVal.jstr (pyLower lid)) else dget md ASSET_PATH_METADATA_KEY) = some pv)
    (hpvt : truthy pv = true)
    (hprops : dget r PROPERTIES_KEY = some (.jobj props)) :
    ∃ s l1 r1 props1,
      ap = JVal.jstr s ∧
      dget t' RESOURCES_KEY = some (.jobj l1) ∧
      l1[i]? = some (lid, .jobj r1) ∧
      dget r1 PROPERTIES_KEY = some (.jobj props1) ∧
      getNested props1 (pySplit s '.') = some pv := by
  obtain ⟨l1, hnr, hres1⟩ := normalize_ok_resources is_cdk np t0 t' ds l0 hres hok
  obtain ⟨hlen, hidx⟩ := normalize_resources_spec l0 l1 ds hnr
  obtain ⟨r', r1, dd, hval, hok1, hidx1, hmem⟩ := hidx i lid (.jobj r) hi
  injection hval with hval
  subst hval
  obtain ⟨s, md3, hs, hd, hmd3, hmark, hshape⟩ :=
    normalize_resource_both lid r r1 md dd ap pv hmd hnn hap hapt hpath hpvt hok1
  cases hshape with
  | inl hc => rw [hprops] at hc; exact absurd hc.1 (by simp)
  | inr hc =>
    obtain ⟨props', hpr', hre⟩ := hc
    rw [hprops] at hpr'
    injection hpr' with hpr'
    injection hpr' with hpr'
    subst hpr'
    exact ⟨s, l1, r1, setNested props (pySplit s '.') pv, hs, hres1, hidx1, hre,
      getNested_setNested props pv (pySplit s '.') (pySplit_ne_nil s '.')⟩

/-- C1 witness: the amended claim applied to a concrete template with
locator `Code.S3Key`, path `assets/fn.zip` and an existing `Properties`
mapping. -/
theorem C1_witness :
    ∃ s l1 r1 props1,
      JVal.jstr "Code.S3Key" = JVal.jstr s ∧
      dget s3Output RESOURCES_KEY = some (.jobj l1) ∧
      l1[0]? = some ("Fn", .jobj r1) ∧
      dget r1 PROPERTIES_KEY = some (.jobj props1) ∧
      getNested props1 (pySplit s '.') = some (.jstr "assets/fn.zip") :=
  C1_property_substitution (fun _ => false) false s3Template s3Output []
    [("Fn", .jobj s3Fn)] 0 "Fn" s3Fn s3Md s3Props
    (.jstr "Code.S3Key") (.jstr "assets/fn.zip")
    rfl rfl rfl rfl rfl rfl rfl rfl rfl rfl

/-! Claim C2. -/

/-- C2: `normalize` is idempotent on `Properties`: for every resource that
had both a non-empty target locator and a non-empty asset path present (and
was not yet marked), running `normalize` a second time on the result leaves
that resource's `Properties` exactly as after the first run, because the
first run marks the resource's metadata with `SamNormalized` and marked
resources are skipped by the asset rewrite pass. -/
theorem C2_idempotent (is_cdk : List (String × JVal) → Bool) (np : Bool)
    (t0 t1 t2 : List (String × JVal)) (ds1 ds2 : List String)
    (l0 : List (String × JVal)) (i : Nat) (lid : String)
    (r md : List (String × JVal)) (ap pv : JVal)
    (h1 : normalize is_cdk t0 np = .ok (t1, ds1))
    (h2 : normalize is_cdk t1 np = .ok (t2, ds2))
    (hres : dget t0 RESOURCES_KEY = some (.jobj l0))
    (hi : l0[i]? = some (lid, .jobj r))
    (hmd : dget r METADATA_KEY = some (.jobj md))
    (hnn : truthy (dgetD md SAM_IS_NORMALIZED (.jbool false)) = false)
    (hap : dget md ASSET_PROPERTY_METADATA_KEY = some ap)
    (hapt : truthy ap = true)
    (hpath : (if pyEqStr (some ap) IMAGE_ASSET_PROPERTY then
        some (JVal.jstr (pyLower lid)) else dget md ASSET_PATH_METADATA_KEY) = some pv)
    (hpvt : truthy pv = true) :
    ∃ l1 l2 r1 r2,
      dget t1 RESOURCES_KEY = some (.jobj l1) ∧
      dget t2 RESOURCES_KEY = some (.jobj l2) ∧
      l1[i]? = some (lid, .jobj r1) ∧
      l2[i]? = some (lid, .jobj r2) ∧
      dget r2 PROPERTIES_KEY = dget r1 PROPERTIES_KEY := by
  obtain ⟨l1, hnr1, hres1⟩ := normalize_ok_resources is_cdk np t0 t1 ds1 l0 hres h1
  obtain ⟨hlen1, hidx1⟩ := normalize_resources_spec l0 l1 ds1 hnr1
  obtain ⟨r', r1, dd, hval, hok1, hidx1e, hmem1⟩ := hidx1 i lid (.jobj r) hi
  injection hval with hval
  subst hval
  obtain ⟨s, md3, hs, hd, hmd3, hmark, hshape⟩ :=
    normalize_resource_both lid r r1 md dd ap pv hmd hnn hap hapt hpath hpvt hok1
  obtain ⟨l2, hnr2, hres2⟩ := normalize_ok_resources is_cdk np t1 t2 ds2 l1 hres1 h2
  obtain ⟨hlen2, hidx2⟩ := normalize_resources_spec l1 l2 ds2 hnr2
  obtain ⟨r1', r2, dd2, hval2, hok2, hidx2e, hmem2⟩ := hidx2 i lid (.jobj r1) hidx1e
  injection hval2 with hval2
  subst hval2
  have hm : truthy (dgetD md3 SAM_IS_NORMALIZED (.jbool false)) = true := by
    rw [dgetD, hmark]
    rfl
  obtain ⟨r1x, hok2x, hpp⟩ := normalize_resource_marked lid r1 md3 hmd3 hm
  rw [hok2x] at hok2
  simp only [Except.ok.injEq, Prod.mk.injEq] at hok2
  obtain ⟨hr2, hdd2⟩ := hok2
  subst hr2
  exact ⟨l1, l2, r1, r1x, hres1, hres2, hidx1e, hidx2e, hpp⟩

/-- C2 witness: the idempotence claim applied to the concrete S3-asset
template; the second run leaves `Properties` as after the first. -/
theorem C2_witness :
    ∃ l1 l2 r1 r2,
      dget s3Output RESOURCES_KEY = some (.jobj l1) ∧
      dget s3Output RESOURCES_KEY = some (.jobj l2) ∧
      l1[0]? = some ("Fn", .jobj r1) ∧
      l2[0]? = some ("Fn", .jobj r2) ∧
      dget r2 PROPERTIES_KEY = dget r1 PROPERTIES_KEY :=
  C2_idempotent (fun _ => false) false s3Template s3Output s3Output [] []
    [("Fn", .jobj s3Fn)] 0 "Fn" s3Fn s3Md
    (.jstr "Code.S3Key") (.jstr "assets/fn.zip")
    rfl rfl rfl rfl rfl rfl rfl rfl rfl rfl

/-! Claim C8. -/

/-- C8: during property substitution the first traversed segment of a
multi-segment locator is overwritten with a fresh dict rather than merged:
for every unmarked resource with both locator and path present whose
`Properties` already holds a mapping with sibling keys at the first locator
segment, after `normalize` that intermediate mapping is a singleton holding
only the continuation of the rewritten path, and any sibling key is gone. -/
theorem C8_sibling_keys_destroyed (is_cdk : List (String × JVal) → Bool)
    (np : Bool) (t0 t' : List (String × JVal)) (ds : List String)
    (l0 : List (String × JVal)) (i : Nat) (lid : String)
    (r md props m0 : List (String × JVal)) (s k0 k1 : String)
    (krest : List String) (pv w : JVal) (sib : String)
    (hok : normalize is_cdk t0 np = .ok (t', ds))
    (hres : dget t0 RESOURCES_KEY = some (.jobj l0))
    (hi : l0[i]? = some (lid, .jobj r))
    (hmd : dget r METADATA_KEY = some (.jobj md))
    (hnn : truthy (dgetD md SAM_IS_NORMALIZED (.jbool false)) = false)
    (hap : dget md ASSET_PROPERTY_METADATA_KEY = some (.jstr s))
    (hapt : truthy (JVal.jstr s) = true)
    (hsplit : pySplit s '.' = k0 :: k1 :: krest)
    (hpath : (if pyEqStr (some (.jstr s)) IMAGE_ASSET_PROPERTY then
        some (JVal.jstr (pyLower lid)) else dget md ASSET_PATH_METADATA_KEY) = some pv)
    (hpvt : truthy pv = true)
    (hprops : dget r PROPERTIES_KEY = some (.jobj props))
    (hm0 : dget props k0 = some (.jobj m0))
    (hsib : sib ≠ k1)
    (hsibv : dget m0 sib = some w) :
    ∃ l1 r1 props1 m1,
      dget t' RESOURCES_KEY = some (.jobj l1) ∧
      l1[i]? = some (lid, .jobj r1) ∧
      dget r1 PROPERTIES_KEY = some (.jobj props1) ∧
      dget props1 k0 = some (.jobj m1) ∧
      m1.length = 1 ∧
      dget m1 sib = none ∧
      (∃ w1, dget m1 k1 = some w1) := by
  obtain ⟨l1, hnr, hres1⟩ := normalize_ok_resources is_cdk np t0 t' ds l0 hres hok
  obtain ⟨hlen, hidx⟩ := normalize_resources_spec l0 l1 ds hnr
  obtain ⟨r', r1, dd, hval, hok1, hidx1, hmem⟩ := hidx i lid (.jobj r) hi
  injection hval with hval
  subst hval
  obtain ⟨s', md3, hs, hd, hmd3, hmark, hshape⟩ :=
    normalize_resource_both lid r r1 md dd (.jstr s) pv hmd hnn hap hapt hpath hpvt hok1
  injection hs with hs
  subst hs
  cases hshape with
  | inl hc => rw [hprops] at hc; exact absurd hc.1 (by simp)
  | inr hc =>
    obtain ⟨props', hpr', hre⟩ := hc
    rw [hprops] at hpr'
    injection hpr' with hpr'
    injection hpr' with hpr'
    subst hpr'
    rw [hsplit] at hre
    obtain ⟨w1, hbf⟩ := buildFresh_cons k1 krest pv
    refine ⟨l1, r1, setNested props (k0 :: k1 :: krest) pv,
      buildFresh (k1 :: krest) pv, hres1, hidx1, hre, ?_, ?_, ?_, ?_⟩
    · simp only [setNested]
      exact dget_dset_self props k0 _
    · rw [hbf]
      rfl
    · rw [hbf]
      simp [dget, Ne.symm hsib]
    · rw [hbf]
      exact ⟨w1, by simp [dget]⟩

/-- C8 witness: the sibling key `S3Bucket` under `Properties.Code` is gone
after rewriting locator `Code.S3Key` on the concrete S3-asset template. -/
theorem C8_witness :
    ∃ l1 r1 props1 m1,
      dget s3Output RESOURCES_KEY = some (.jobj l1) ∧
      l1[0]? = some ("Fn", .jobj r1) ∧
      dget r1 PROPERTIES_KEY = some (.jobj props1) ∧
      dget props1 "Code" = some (.jobj m1) ∧
      m1.length = 1 ∧
      dget m1 "S3Bucket" = none ∧
      (∃ w1, dget m1 "S3Key" = some w1) :=
  C8_sibling_keys_destroyed (fun _ => false) false s3Template s3Output []
    [("Fn", .jobj s3Fn)] 0 "Fn" s3Fn s3Md s3Props
    [("S3Bucket", .jstr "b"), ("S3Key", .jstr "old")]
    "Code.S3Key" "Code" "S3Key" [] (.jstr "assets/fn.zip") (.jstr "b") "S3Bucket"
    rfl rfl rfl rfl rfl rfl rfl rfl rfl rfl rfl rfl (by decide) rfl

/-! Claim C9. -/

/-- C9: for every unmarked resource where exactly one of the asset target
locator and the asset path (the lower-cased logical id in the image case) is
present and non-empty, `normalize` leaves that resource's `Properties`
unchanged, its per-resource pass emits exactly one diagnostic whose text
contains the logical id (and that diagnostic is among the collected
diagnostics), and the resource's metadata is left without the normalized
marker. -/
theorem C9_exactly_one_diagnostic (is_cdk : List (String × JVal) → Bool)
    (np : Bool) (t0 t' : List (String × JVal)) (ds : List String)
    (l0 : List (String × JVal)) (i : Nat) (lid : String)
    (r md : List (String × JVal)) (apo po : Option JVal)
    (hok : normalize is_cdk t0 np = .ok (t', ds))
    (hres : dget t0 RESOURCES_KEY = some (.jobj l0))
    (hi : l0[i]? = some (lid, .jobj r))
    (hmd : dget r METADATA_KEY = some (.jobj md))
    (hnn : truthy (dgetD md SAM_IS_NORMALIZED (.jbool false)) = false)
    (hap : dget md ASSET_PROPERTY_METADATA_KEY = apo)
    (hpath : (if pyEqStr apo IMAGE_ASSET_PROPERTY then some (JVal.jstr (pyLower lid))
              else dget md ASSET_PATH_METADATA_KEY) = po)
    (hx : (otruthy apo != otruthy po) = true) :
    ∃ l1 r1,
      dget t' RESOURCES_KEY = some (.jobj l1) ∧
      l1[i]? = some (lid, .jobj r1) ∧
      normalize_resource lid r = .ok (r1, [replaceWarning lid]) ∧
      dget r1 PROPERTIES_KEY = dget r PROPERTIES_KEY ∧
      (∃ md3, dget r1 METADATA_KEY = some (.jobj md3) ∧
        truthy (dgetD md3 SAM_IS_NORMALIZED (.jbool false)) = false) ∧
      replaceWarning lid ∈ ds ∧
      lid.data <:+: (replaceWarning lid).data := by
  obtain ⟨l1, hnr, hres1⟩ := normalize_ok_resources is_cdk np t0 t' ds l0 hres hok
  obtain ⟨hlen, hidx⟩ := normalize_resources_spec l0 l1 ds hnr
  obtain ⟨r', r1, dd, hval, hok1, hidx1, hmem⟩ := hidx i lid (.jobj r) hi
  injection hval with hval
  subst hval
  obtain ⟨hdd, hpp, hmd3⟩ :=
    normalize_resource_xor lid r r1 md dd apo po hmd hnn hap hpath hx hok1
  subst hdd
  refine ⟨l1, r1, hres1, hidx1, hok1, hpp, hmd3, hmem _ (by simp), ?_⟩
  refine ⟨("WARNING: Ignoring Metadata for Resource " : String).data,
    (". Metadata contains only aws:asset:path or aws:assert:property but not both" : String).data, ?_⟩
  rw [replaceWarning]
  rw [String.data_append, String.data_append]

/-- C9 witness: the concrete locator-only template: one warning naming the
resource `Fn`, `Properties` unchanged, metadata unmarked. -/
theorem C9_witness :
    ∃ l1 r1,
      dget locatorOnlyTemplate RESOURCES_KEY = some (.jobj l1) ∧
      l1[0]? = some ("Fn", .jobj r1) ∧
      normalize_resource "Fn" locatorOnlyFn = .ok (r1, [replaceWarning "Fn"]) ∧
      dget r1 PROPERTIES_KEY = dget locatorOnlyFn PROPERTIES_KEY ∧
      (∃ md3, dget r1 METADATA_KEY = some (.jobj md3) ∧
        truthy (dgetD md3 SAM_IS_NORMALIZED (.jbool false)) = false) ∧
      replaceWarning "Fn" ∈ [replaceWarning "Fn"] ∧
      ("Fn" : String).data <:+: (replaceWarning "Fn").data :=
  C9_exactly_one_diagnostic (fun _ => false) false locatorOnlyTemplate
    locatorOnlyTemplate [replaceWarning "Fn"]
    [("Fn", .jobj locatorOnlyFn)] 0 "Fn" locatorOnlyFn locatorOnlyMd
    (some (.jstr "Code.S3Key")) none
    rfl rfl rfl rfl rfl rfl rfl rfl

/-! Claim C3. -/

/-- C3: contrary to the claim, `normalize` does raise a fatal error for a
resource whose asset target locator equals `Code.ImageUri` but whose
metadata lacks the `aws:asset:dockerfile-path` key: the source's
`Path(metadata.get(ASSET_DOCKERFILE_PATH_KEY), "")` passes the `.get`
default to `Path` instead of to `.get`, so `Path` receives `None` and raises
`TypeError` (the adjacent line uses the correct
`Path(metadata.get(ASSET_PATH_METADATA_KEY, ""))` pattern, marking this as a
slip).  Evaluating the embedding at the failing input yields the error
instead of a completed template. -/
theorem C3_missing_dockerfile_path_raises :
    normalize (fun _ => false) missingDockerfileTemplate false =
      .error "TypeError: argument should be a str or an os.PathLike object, not NoneType" ∧
    dget
      [("aws:asset:path", .jstr "src/"), ("aws:asset:property", .jstr "Code.ImageUri")]
      ASSET_DOCKERFILE_PATH_KEY = none :=
  ⟨rfl, rfl⟩

/-! Claim C4. -/

/-- C4 counterexample: on the spec's image-asset example (asset path `src/`,
dockerfile path `src/docker/Dockerfile`), the docker context recorded in the
metadata is `str(Path("src/").joinpath(Path("src/docker/Dockerfile").parent))
= "src/src/docker"`, not the `"src/docker"` the claim states. -/
theorem C4_counterexample :
    normalize (fun _ => false) (imageTemplate "MyFunc") false =
      .ok (imageOutput "MyFunc", []) ∧
    dget imageMdOut SAM_METADATA_DOCKER_CONTEXT_KEY = some (.jstr "src/src/docker") ∧
    JVal.jstr "src/src/docker" ≠ JVal.jstr "src/docker" :=
  ⟨rfl, rfl, by simp⟩

/-- C4 (amended): for a resource whose metadata has asset target locator
`Code.ImageUri`, asset source path `src/`, dockerfile path
`src/docker/Dockerfile` and build args `A=1`, and whose logical id
lower-cases to a non-empty string, after `normalize` the resource's metadata
contains dockerfile name `Dockerfile`, docker context `src/src/docker`
(amended from the claim's `src/docker`: the code joins the asset path with
the dockerfile's parent directory, giving `src/src/docker`), and build args
`A=1`, and `Properties.Code.ImageUri` equals the lower-cased logical id. -/
theorem C4_image_asset_metadata (lid : String) (h : pyLower lid ≠ "") :
    normalize (fun _ => false) (imageTemplate lid) false = .ok (imageOutput lid, []) ∧
    ∃ r1 md1 props1,
      dget (imageOutput lid) RESOURCES_KEY = some (.jobj [(lid, .jobj r1)]) ∧
      dget r1 METADATA_KEY = some (.jobj md1) ∧
      dget md1 SAM_METADATA_DOCKERFILE_KEY = some (.jstr "Dockerfile") ∧
      dget md1 SAM_METADATA_DOCKER_CONTEXT_KEY = some (.jstr "src/src/docker") ∧
      dget md1 SAM_METADATA_DOCKER_BUILD_ARGS_KEY = some (.jobj [("A", .jstr "1")]) ∧
      dget r1 PROPERTIES_KEY = some (.jobj props1) ∧
      getNested props1 (pySplit IMAGE_ASSET_PROPERTY '.') = some (.jstr (pyLower lid)) := by
  have hb : (pyLower lid == "") = false := beq_eq_false_iff_ne.mpr h
  constructor
  · simp [normalize, imageTemplate, imageOutput, imageFn, imageFnOut, imageMd, imageMdOut,
      normalize_resources, normalize_resource, normalize_resource_body,
      extract_image_asset_metadata, parsePPath, ppStem, ppParent, ppJoin, ppStr, ppName,
      rfindDot, joinSlash, pyStartsWith, pySplit, splitCharList,
      update_resource_metadata, replace_property, skip_build_update, write_metadata,
      mark_normalized, dget, dgetD, dset, hasKey, truthy, otruthy, pyEqStr, jvEqStr, hb,
      setNested, buildFresh, RESOURCES_KEY, PROPERTIES_KEY, METADATA_KEY,
      ASSET_PATH_METADATA_KEY, ASSET_PROPERTY_METADATA_KEY, IMAGE_ASSET_PROPERTY,
      ASSET_DOCKERFILE_PATH_KEY, ASSET_DOCKERFILE_BUILD_ARGS_KEY, SAM_IS_NORMALIZED,
      SAM_METADATA_DOCKERFILE_KEY, SAM_METADATA_DOCKER_CONTEXT_KEY,
      SAM_METADATA_DOCKER_BUILD_ARGS_KEY, ASSET_BUNDLED_METADATA_KEY,
      SAM_METADATA_SKIP_BUILD_KEY, Except.map, Option.getD]
  · exact ⟨imageFnOut lid, imageMdOut,
      [("Code", .jobj [("ImageUri", .jstr (pyLower lid))])],
      rfl, rfl, rfl, rfl, rfl, rfl, rfl⟩

/-! Lemmas about `get_resource_id`. -/

/-- Reading the metadata dict of a resource whose `Metadata` is a mapping or
absent never raises. -/
theorem get_resource_id_eq_core (rp md : List (String × JVal)) (lid : String)
    (hmd : dget rp "Metadata" = some (.jobj md) ∨
      (dget rp "Metadata" = none ∧ md = [])) :
    get_resource_id rp lid = .ok (get_resource_id_core rp md lid) := by
  unfold get_resource_id
  cases hmd with
  | inl h => rw [h]
  | inr h => rw [h.1, h.2]

/-- Without a non-empty string customer id, `get_resource_id` falls through
to the CDK-path logic. -/
theorem get_resource_id_core_no_customer (rp md : List (String × JVal)) (lid : String)
    (hnc : ∀ c, dget md SAM_RESOURCE_ID_KEY = some (.jstr c) → c = "") :
    get_resource_id_core rp md lid = get_resource_id_from_cdk_path rp md lid := by
  unfold get_resource_id_core
  cases hcv : dget md SAM_RESOURCE_ID_KEY with
  | none => rfl
  | some v =>
    cases v with
    | jstr c =>
      have hc := hnc c hcv
      subst hc
      simp
    | jnull => rfl
    | jbool b => rfl
    | jnum n => rfl
    | jarr xs => rfl
    | jobj fs => rfl

/-- The CDK-path logic on a non-empty string path with at least two
segments: the second-to-last segment, with the `.NestedStack` suffix
stripped when the type is `AWS::CloudFormation::Stack`. -/
theorem get_resource_id_from_cdk_path_eq (rp md : List (String × JVal))
    (lid s : String) (parts : List String)
    (hcdk : dget md RESOURCE_CDK_PATH_METADATA_KEY = some (.jstr s))
    (hne : s ≠ "")
    (hparts : pySplit s '/' = parts)
    (hlen : 2 ≤ parts.length) :
    get_resource_id_from_cdk_path rp md lid =
      (if jvEqStr (dgetD rp "Type" (.jstr "")) "AWS::CloudFormation::Stack" &&
          pyEndsWith (parts.getD (parts.length - 2) "") ".NestedStack" then
        pyDropRight (parts.getD (parts.length - 2) "") (".NestedStack".length)
      else parts.getD (parts.length - 2) "") := by
  unfold get_resource_id_from_cdk_path
  simp only [hcdk, show (s == "") = false from beq_eq_false_iff_ne.mpr hne,
    Bool.false_eq_true, if_false, hparts]
  rw [if_neg (show ¬parts.length < 2 by omega)]

/-- The CDK-path logic returns the logical id when the path is absent, not a
string, empty, or has fewer than two segments. -/
theorem get_resource_id_from_cdk_path_fallback (rp md : List (String × JVal))
    (lid : String)
    (h : dget md RESOURCE_CDK_PATH_METADATA_KEY = none ∨
      (∃ v, dget md RESOURCE_CDK_PATH_METADATA_KEY = some v ∧ ∀ t, v ≠ JVal.jstr t) ∨
      dget md RESOURCE_CDK_PATH_METADATA_KEY = some (.jstr "") ∨
      (∃ t, dget md RESOURCE_CDK_PATH_METADATA_KEY = some (.jstr t) ∧
        (pySplit t '/').length < 2)) :
    get_resource_id_from_cdk_path rp md lid = lid := by
  unfold get_resource_id_from_cdk_path
  rcases h with h | ⟨v, hv, hvne⟩ | h | ⟨t, ht, htlen⟩
  · rw [h]
  · rw [hv]
    cases v with
    | jstr u => exact absurd rfl (hvne u)
    | jnull => rfl
    | jbool b => rfl
    | jnum n => rfl
    | jarr xs => rfl
    | jobj fs => rfl
  · rw [h]
    rfl
  · by_cases hte : t = ""
    · subst hte
      rw [ht]
      rfl
    · simp only [ht, show (t == "") = false from beq_eq_false_iff_ne.mpr hte,
        Bool.false_eq_true, if_false]
      rw [if_pos htlen]

/-! Substring and serialization lemmas used for the parameter pass. -/

theorem infix_append_left_of {α : Type} (a : List α) {n m : List α}
    (h : n <:+: m) : n <:+: a ++ m := by
  obtain ⟨u, w, he⟩ := h
  exact ⟨a ++ u, w, by rw [← he]; simp⟩

theorem infix_append_right_of {α : Type} (b : List α) {n m : List α}
    (h : n <:+: m) : n <:+: m ++ b := by
  obtain ⟨u, w, he⟩ := h
  exact ⟨u, w ++ b, by rw [← he]; simp⟩

/-- The executable substring test agrees with `List.IsInfix` (the direction
needed: an actual occurrence makes the test succeed). -/
theorem isInfixCharList_of_sub {n l : List Char} (h : n <:+: l) :
    isInfixCharList n l = true := by
  induction l with
  | nil =>
    rw [List.infix_nil] at h
    subst h
    rfl
  | cons c rest ih =>
    rw [List.infix_cons_iff] at h
    unfold isInfixCharList
    cases h with
    | inl hp => simp [List.isPrefixOf_iff_prefix.mpr hp]
    | inr hi => simp [ih hi]

/-- A printable ASCII character other than quote and backslash is rendered
as itself by the `json.dumps` escaping. -/
theorem escapeChar_plain (c : Char) (h : asciiPlain c = true) :
    escapeChar c = [c] := by
  unfold asciiPlain at h
  simp only [Bool.and_eq_true, Bool.not_eq_true', decide_eq_true_eq,
    decide_eq_false_iff_not] at h
  obtain ⟨⟨⟨h1, h2⟩, h3⟩, h4⟩ := h
  have n8 : ¬(c = '\x08') := fun he => by rw [he] at h1; exact absurd h1 (by decide)
  have n12 : ¬(c = '\x0c') := fun he => by rw [he] at h1; exact absurd h1 (by decide)
  have nn : ¬(c = '\n') := fun he => by rw [he] at h1; exact absurd h1 (by decide)
  have nr : ¬(c = '\r') := fun he => by rw [he] at h1; exact absurd h1 (by decide)
  have nt : ¬(c = '\t') := fun he => by rw [he] at h1; exact absurd h1 (by decide)
  unfold escapeChar
  rw [if_neg h3, if_neg h4, if_neg n8, if_neg n12, if_neg nn, if_neg nr, if_neg nt,
    if_pos (by simp [h1, h2])]

theorem escapeList_plain (l : List Char) (h : l.all asciiPlain = true) :
    (l.map escapeChar).flatten = l := by
  induction l with
  | nil => rfl
  | cons c rest ih =>
    simp only [List.all_cons, Bool.and_eq_true] at h
    simp [escapeChar_plain c h.1, ih h.2]

/-- A clean string is rendered verbatim between its quotes. -/
theorem escapeStr_clean (s : String) (h : cleanStr s = true) :
    escapeStr s = s.data :=
  escapeList_plain s.data h

/-- The scanned-for f-string is exactly the serialization of a `Ref` entry
whose value is the (clean) parameter name. -/
theorem refNeedle_data (pname : String) (h : cleanStr pname = true) :
    (refNeedle pname).data = dumpStr "Ref" ++ ':' :: ' ' :: dumpStr pname := by
  unfold refNeedle dumpStr
  rw [String.data_append, String.data_append, escapeStr_clean pname h,
    show escapeStr "Ref" = ['R', 'e', 'f'] from rfl]
  simp

mutual

/-- A `Ref` occurrence somewhere in a document value shows up as the literal
`"Ref": "<name>"` substring of its `json.dumps` rendering. -/
theorem occursRef_substring (pname : String) (hc : cleanStr pname = true) :
    ∀ v : JVal, occursRef pname v = true → (refNeedle pname).data <:+: dumpChars v
  | .jnull, h => by simp [occursRef] at h
  | .jbool b, h => by simp [occursRef] at h
  | .jstr s, h => by simp [occursRef] at h
  | .jnum n, h => by simp [occursRef] at h
  | .jarr xs, h => by
    have hi := occursRefArr_substring pname hc xs (by simpa [occursRef] using h)
    simp only [dumpChars]
    have : (refNeedle pname).data <:+: '[' :: (dumpArr xs ++ [']']) :=
      infix_append_left_of ['['] (infix_append_right_of [']'] hi)
    simpa using this
  | .jobj fs, h => by
    have hi := occursRefFields_substring pname hc fs (by simpa [occursRef] using h)
    simp only [dumpChars]
    have : (refNeedle pname).data <:+: '\x7b' :: (dumpFields fs ++ ['\x7d']) :=
      infix_append_left_of ['\x7b'] (infix_append_right_of ['\x7d'] hi)
    simpa using this
termination_by structural v => v

theorem occursRefArr_substring (pname : String) (hc : cleanStr pname = true) :
    ∀ l : List JVal, occursRefArr pname l = true →
      (refNeedle pname).data <:+: dumpArr l
  | [], h => by simp [occursRefArr] at h
  | v :: rest, h => by
    rw [occursRefArr, Bool.or_eq_true] at h
    cases h with
    | inl hv =>
      have hi := occursRef_substring pname hc v hv
      cases rest with
      | nil => simpa [dumpArr] using hi
      | cons w ws =>
        simp only [dumpArr]
        exact infix_append_right_of _ hi
    | inr hr =>
      have hi := occursRefArr_substring pname hc rest hr
      cases rest with
      | nil => simp [occursRefArr] at hr
      | cons w ws =>
        simp only [dumpArr]
        exact infix_append_left_of _ (infix_append_left_of [',', ' '] hi)
termination_by structural l => l

theorem occursRefFields_substring (pname : String) (hc : cleanStr pname = true) :
    ∀ l : List (String × JVal), occursRefFields pname l = true →
      (refNeedle pname).data <:+: dumpFields l
  | [], h => by simp [occursRefFields] at h
  | (k, v) :: rest, h => by
    rw [occursRefFields, Bool.or_eq_true, Bool.or_eq_true] at h
    rcases h with (hkv | hv) | hr
    · rw [Bool.and_eq_true] at hkv
      obtain ⟨hk, hv⟩ := hkv
      have hk' : k = "Ref" := by simpa using hk
      subst hk'
      have hv' : v = .jstr pname := by
        cases v <;> simp [jvEqStr] at hv
        · exact congrArg JVal.jstr hv
      subst hv'
      have hne := refNeedle_data pname hc
      cases rest with
      | nil =>
        simp only [dumpFields, dumpChars]
        rw [hne]
      | cons w ws =>
        simp only [dumpFields, dumpChars]
        rw [hne]
        exact ⟨[], ',' :: ' ' :: dumpFields (w :: ws), by simp [List.append_assoc]⟩
    · have hi := occursRef_substring pname hc v hv
      have hB : (refNeedle pname).data <:+: ':' :: ' ' :: dumpChars v := by
        simpa using infix_append_left_of [':', ' '] hi
      cases rest with
      | nil =>
        simp only [dumpFields]
        exact infix_append_left_of _ hB
      | cons w ws =>
        simp only [dumpFields]
        exact infix_append_right_of _ (infix_append_left_of _ hB)
    · have hi := occursRefFields_substring pname hc rest hr
      cases rest with
      | nil => simp [occursRefFields] at hr
      | cons w ws =>
        simp only [dumpFields]
        have hC : (refNeedle pname).data <:+: ',' :: ' ' :: dumpFields (w :: ws) := by
          simpa using infix_append_left_of [',', ' '] hi
        exact infix_append_left_of _ hC
termination_by structural l => l

end

/-- A `Ref`-entry occurrence anywhere in the document makes the textual scan
of its serialization find the reference. -/
theorem containsSub_of_occursRef (pname : String) (v : JVal)
    (ho : occursRef pname v = true) (hc : cleanStr pname = true) :
    containsSub (dumps v) (refNeedle pname) = true := by
  unfold containsSub dumps
  exact isInfixCharList_of_sub (occursRef_substring pname hc v ho)

/-! Lemmas about the parameter loop. -/

/-- Inversion of the parameter loop: the output list is the element-wise
image of the input list under `normalize_parameter`. -/
theorem normalize_parameters_pass_spec :
    ∀ (ps ps1 : List (String × JVal)) (rstr : String),
      normalize_parameters_pass rstr ps = .ok ps1 →
      ps1.length = ps.length ∧
      ∀ (i : Nat) (pn : String) (pv : JVal), ps[i]? = some (pn, pv) →
        ∃ v1, normalize_parameter rstr pn pv = .ok v1 ∧ ps1[i]? = some (pn, v1) := by
  intro ps
  induction ps with
  | nil =>
    intro ps1 rstr h
    simp only [normalize_parameters_pass, Except.ok.injEq] at h
    subst h
    exact ⟨rfl, fun i pn pv hv => by simp at hv⟩
  | cons hd tl ih =>
    intro ps1 rstr h
    obtain ⟨pn0, pv0⟩ := hd
    simp only [normalize_parameters_pass] at h
    cases hp : normalize_parameter rstr pn0 pv0 with
    | error e => rw [hp] at h; exact absurd h (by simp)
    | ok v =>
      rw [hp] at h
      cases htl : normalize_parameters_pass rstr tl with
      | error e => rw [htl] at h; exact absurd h (by simp)
      | ok rest1 =>
        rw [htl] at h
        simp only [Except.ok.injEq] at h
        subst h
        obtain ⟨ihlen, ihidx⟩ := ih rest1 rstr htl
        refine ⟨by simp [ihlen], ?_⟩
        intro i pn pv hv
        cases i with
        | zero =>
          simp only [List.getElem?_cons_zero, Option.some.injEq, Prod.mk.injEq] at hv
          obtain ⟨h1, h2⟩ := hv
          subst h1
          subst h2
          exact ⟨v, hp, by simp⟩
        | succ j =>
          simp only [List.getElem?_cons_succ] at hv
          obtain ⟨v1, hnp, hidx⟩ := ihidx j pn pv hv
          exact ⟨v1, hnp, by simpa using hidx⟩

/-- Case analysis of one parameter-loop iteration on a reserved-prefix
parameter: either all guards passed and `Default` was set to a single
space, or the parameter is unchanged and — when it is a dict lacking
`Default` with `Type` exactly `String` — the textual reference scan must
have found it. -/
theorem normalize_parameter_cases (rstr pn : String) (pv v1 : JVal)
    (hok : normalize_parameter rstr pn pv = .ok v1)
    (hpre : pyStartsWith pn "AssetParameters" = true) :
    (∃ m, pv = JVal.jobj m ∧ hasKey m "Default" = false ∧
      jvEqStr (dgetD m "Type" (.jstr "")) "String" = true ∧
      containsSub rstr (refNeedle pn) = false ∧
      v1 = .jobj (dset m "Default" (.jstr " "))) ∨
    (v1 = pv ∧
      ∀ m, pv = JVal.jobj m → hasKey m "Default" = false →
        jvEqStr (dgetD m "Type" (.jstr "")) "String" = true →
        containsSub rstr (refNeedle pn) = true) := by
  unfold normalize_parameter at hok
  rw [hpre] at hok
  simp only [if_true] at hok
  cases pv with
  | jobj m =>
    have hok' : (if hasKey m "Default" then Except.ok (JVal.jobj m)
        else if jvEqStr (dgetD m "Type" (.jstr "")) "String" &&
            !containsSub rstr (refNeedle pn) then
          Except.ok (JVal.jobj (dset m "Default" (.jstr " ")))
        else Except.ok (JVal.jobj m)) = Except.ok v1 := hok
    cases hdef : hasKey m "Default" with
    | true =>
      rw [hdef] at hok'
      simp only [if_true, Except.ok.injEq] at hok'
      refine Or.inr ⟨hok'.symm, ?_⟩
      intro m' hm' hdef'
      injection hm' with hm'
      subst hm'
      rw [hdef] at hdef'
      exact absurd hdef' (by simp)
    | false =>
      rw [hdef] at hok'
      simp only [Bool.false_eq_true, if_false] at hok'
      cases hcond : (jvEqStr (dgetD m "Type" (.jstr "")) "String" &&
          !containsSub rstr (refNeedle pn)) with
      | true =>
        rw [hcond] at hok'
        simp only [if_true, Except.ok.injEq] at hok'
        rw [Bool.and_eq_true, Bool.not_eq_true'] at hcond
        exact Or.inl ⟨m, rfl, hdef, hcond.1, hcond.2, hok'.symm⟩
      | false =>
        rw [hcond] at hok'
        simp only [Bool.false_eq_true, if_false, Except.ok.injEq] at hok'
        refine Or.inr ⟨hok'.symm, ?_⟩
        intro m' hm' hdef' htype'
        injection hm' with hm'
        subst hm'
        rw [Bool.and_eq_false_iff] at hcond
        cases hcond with
        | inl hcl => exact absurd htype' (by simp [hcl])
        | inr hcr => simpa using hcr
  | jstr s =>
    have hok' : (if containsSub s "Default" then Except.ok (JVal.jstr s)
        else Except.error
          "AttributeError: get called on a non-dict parameter value") =
        Except.ok v1 := hok
    cases hcs : containsSub s "Default" with
    | true =>
      rw [hcs] at hok'
      simp only [if_true, Except.ok.injEq] at hok'
      exact Or.inr ⟨hok'.symm, fun m hm => by simp at hm⟩
    | false =>
      rw [hcs] at hok'
      exact absurd hok' (by simp)
  | jarr xs =>
    have hok' : (if xs.any (fun v => jvEqStr v "Default") then Except.ok (JVal.jarr xs)
        else Except.error
          "AttributeError: get called on a non-dict parameter value") =
        Except.ok v1 := hok
    cases hcs : xs.any (fun v => jvEqStr v "Default") with
    | true =>
      rw [hcs] at hok'
      simp only [if_true, Except.ok.injEq] at hok'
      exact Or.inr ⟨hok'.symm, fun m hm => by simp at hm⟩
    | false =>
      rw [hcs] at hok'
      exact absurd hok' (by simp)
  | jnull => exact absurd hok (by simp)
  | jbool b => exact absurd hok (by simp)
  | jnum n => exact absurd hok (by simp)

/-- Inversion of `normalize` with parameter normalization requested and the
CDK detection predicate holding: both loops ran, the serialized resources
are those after the resource loop, and the template holds both results. -/
theorem normalize_ok_cdk (t0 t' : List (String × JVal)) (ds : List String)
    (l0 ps0 : List (String × JVal))
    (hres : dget t0 RESOURCES_KEY = some (.jobj l0))
    (hpar : dget t0 "Parameters" = some (.jobj ps0))
    (hok : normalize (fun _ => true) t0 true = .ok (t', ds)) :
    ∃ l1 ps1, normalize_resources l0 = .ok (l1, ds) ∧
      normalize_parameters_pass (dumps (.jobj l1)) ps0 = .ok ps1 ∧
      dget t' RESOURCES_KEY = some (.jobj l1) ∧
      dget t' "Parameters" = some (.jobj ps1) := by
  unfold normalize at hok
  rw [dgetD, hres] at hok
  simp only [Option.getD_some] at hok
  cases hnr : normalize_resources l0 with
  | error e => rw [hnr] at hok; exact absurd hok (by simp)
  | ok p =>
    obtain ⟨l1, d⟩ := p
    rw [hnr] at hok
    simp only [hasKey_of_dget hres, if_true, Bool.true_and] at hok
    rw [dgetD, dget_dset_ne t0 RESOURCES_KEY "Parameters" (.jobj l1) (by decide),
      hpar] at hok
    simp only [Option.getD_some] at hok
    cases hpp : normalize_parameters_pass (dumps (.jobj l1)) ps0 with
    | error e => rw [hpp] at hok; exact absurd hok (by simp)
    | ok ps1 =>
      rw [hpp] at hok
      have hkey : hasKey (dset t0 RESOURCES_KEY (.jobj l1)) "Parameters" = true := by
        unfold hasKey
        rw [dget_dset_ne t0 RESOURCES_KEY "Parameters" (.jobj l1) (by decide), hpar]
        rfl
      rw [hkey] at hok
      simp only [if_true, Except.ok.injEq, Prod.mk.injEq] at hok
      obtain ⟨h1, h2⟩ := hok
      refine ⟨l1, ps1, by rw [h2], hpp, ?_, ?_⟩
      · rw [← h1, dget_dset_ne _ "Parameters" RESOURCES_KEY (.jobj ps1) (by decide)]
        exact dget_dset_self t0 RESOURCES_KEY (.jobj l1)
      · rw [← h1]
        exact dget_dset_self _ "Parameters" (.jobj ps1)

/-! Claim C5. -/

/-- C5: with parameter normalization requested and the template detected as
a CDK project (the detection collaborator, modelled as a predicate
parameter, holding), every parameter whose name starts with
`AssetParameters` gets `Default` set to a single space exactly when it is a
dict without a `Default`, of type exactly `String`, whose literal
`"Ref": "<name>"` substring does not occur in the JSON serialization of the
(rewritten) `Resources` mapping; all other parameters are unchanged.  In
particular a clean-named parameter referenced via a `Ref` entry anywhere in
`Resources` keeps `Default` unset. -/
theorem C5_parameter_defaulting (t0 t' : List (String × JVal)) (ds : List String)
    (l0 ps0 : List (String × JVal))
    (hok : normalize (fun _ => true) t0 true = .ok (t', ds))
    (hres : dget t0 RESOURCES_KEY = some (.jobj l0))
    (hpar : dget t0 "Parameters" = some (.jobj ps0)) :
    ∃ l1 ps1,
      dget t' RESOURCES_KEY = some (.jobj l1) ∧
      dget t' "Parameters" = some (.jobj ps1) ∧
      ps1.length = ps0.length ∧
      ∀ (i : Nat) (pn : String) (pv : JVal), ps0[i]? = some (pn, pv) →
        pyStartsWith pn "AssetParameters" = true →
        ((∃ m, pv = JVal.jobj m ∧ hasKey m "Default" = false ∧
            jvEqStr (dgetD m "Type" (.jstr "")) "String" = true ∧
            containsSub (dumps (.jobj l1)) (refNeedle pn) = false ∧
            ps1[i]? = some (pn, .jobj (dset m "Default" (.jstr " "))) ∧
            dget (dset m "Default" (.jstr " ")) "Default" = some (.jstr " ")) ∨
         (ps1[i]? = some (pn, pv) ∧
           ∀ m, pv = JVal.jobj m → hasKey m "Default" = false →
             jvEqStr (dgetD m "Type" (.jstr "")) "String" = true →
             containsSub (dumps (.jobj l1)) (refNeedle pn) = true)) ∧
        (occursRef pn (.jobj l1) = true → cleanStr pn = true →
          ps1[i]? = some (pn, pv)) := by
  obtain ⟨l1, ps1, hnr, hpp, hres', hpar'⟩ :=
    normalize_ok_cdk t0 t' ds l0 ps0 hres hpar hok
  obtain ⟨hlen, hidx⟩ := normalize_parameters_pass_spec ps0 ps1 (dumps (.jobj l1)) hpp
  refine ⟨l1, ps1, hres', hpar', hlen, ?_⟩
  intro i pn pv hv hpre
  obtain ⟨v1, hnp, hidx1⟩ := hidx i pn pv hv
  have hcases := normalize_parameter_cases (dumps (.jobj l1)) pn pv v1 hnp hpre
  constructor
  · cases hcases with
    | inl hc =>
      obtain ⟨m, hm, hdef, htype, hcontains, hv1⟩ := hc
      subst hv1
      exact Or.inl ⟨m, hm, hdef, htype, hcontains, hidx1,
        dget_dset_self m "Default" (.jstr " ")⟩
    | inr hc =>
      obtain ⟨hv1, hrest⟩ := hc
      subst hv1
      exact Or.inr ⟨hidx1, hrest⟩
  · intro hoccurs hclean
    have hcon := containsSub_of_occursRef pn (.jobj l1) hoccurs hclean
    cases hcases with
    | inl hc =>
      obtain ⟨m, hm, hdef, htype, hcontains, hv1⟩ := hc
      rw [hcon] at hcontains
      exact absurd hcontains (by simp)
    | inr hc =>
      rw [hc.1] at hidx1
      exact hidx1

/-- C5 witness: on the concrete CDK-style template, `AssetParametersFoo`
(unreferenced, type `String`, no default) gets `Default = " "`;
`AssetParametersBar` is referenced via a `Ref` entry in `Resources` and
keeps `Default` unset; `AssetParametersBaz` has a non-`String` type and is
unchanged. -/
theorem C5_witness :
    ∃ l1 ps1,
      dget paramsOutput RESOURCES_KEY = some (.jobj l1) ∧
      dget paramsOutput "Parameters" = some (.jobj ps1) ∧
      ps1.length = ([("AssetParametersFoo", JVal.jobj [("Type", JVal.jstr "String")]),
        ("AssetParametersBar", JVal.jobj [("Type", JVal.jstr "String")]),
        ("AssetParametersBaz", JVal.jobj [("Type", JVal.jstr "Number")])] :
          List (String × JVal)).length ∧
      ∀ (i : Nat) (pn : String) (pv : JVal),
        ([("AssetParametersFoo", JVal.jobj [("Type", JVal.jstr "String")]),
          ("AssetParametersBar", JVal.jobj [("Type", JVal.jstr "String")]),
          ("AssetParametersBaz", JVal.jobj [("Type", JVal.jstr "Number")])] :
            List (String × JVal))[i]? = some (pn, pv) →
        pyStartsWith pn "AssetParameters" = true →
        ((∃ m, pv = JVal.jobj m ∧ hasKey m "Default" = false ∧
            jvEqStr (dgetD m "Type" (.jstr "")) "String" = true ∧
            containsSub (dumps (.jobj l1)) (refNeedle pn) = false ∧
            ps1[i]? = some (pn, .jobj (dset m "Default" (.jstr " "))) ∧
            dget (dset m "Default" (.jstr " ")) "Default" = some (.jstr " ")) ∨
         (ps1[i]? = some (pn, pv) ∧
           ∀ m, pv = JVal.jobj m → hasKey m "Default" = false →
             jvEqStr (dgetD m "Type" (.jstr "")) "String" = true →
             containsSub (dumps (.jobj l1)) (refNeedle pn) = true)) ∧
        (occursRef pn (.jobj l1) = true → cleanStr pn = true →
          ps1[i]? = some (pn, pv)) :=
  C5_parameter_defaulting paramsTemplate paramsOutput []
    [("Fn", .jobj [("Type", .jstr "X"),
      ("Properties", .jobj [("R", .jobj [("Ref", .jstr "AssetParametersBar")])])])]
    [("AssetParametersFoo", .jobj [("Type", .jstr "String")]),
     ("AssetParametersBar", .jobj [("Type", .jstr "String")]),
     ("AssetParametersBaz", .jobj [("Type", .jstr "Number")])]
    rfl rfl rfl

/-! Claim C6. -/

/-- C6: `getResourceId` follows the stated precedence for every resource
whose `Metadata` is a mapping (or absent): a non-empty string customer id is
returned verbatim regardless of the construct path; otherwise, for a
construct path with at least two `/`-segments whose second-to-last segment
does not trigger the nested-stack stripping, that segment is returned; and
when the construct-path value is absent, not a string, empty, or has fewer
than two segments, the logical id is returned. -/
theorem C6_get_resource_id_precedence (rp md : List (String × JVal)) (lid : String)
    (hmd : dget rp "Metadata" = some (.jobj md) ∨
      (dget rp "Metadata" = none ∧ md = [])) :
    (∀ c, dget md SAM_RESOURCE_ID_KEY = some (.jstr c) → c ≠ "" →
      get_resource_id rp lid = .ok c) ∧
    ((∀ c, dget md SAM_RESOURCE_ID_KEY = some (.jstr c) → c = "") →
      (∀ s parts, dget md RESOURCE_CDK_PATH_METADATA_KEY = some (.jstr s) → s ≠ "" →
        pySplit s '/' = parts → 2 ≤ parts.length →
        (jvEqStr (dgetD rp "Type" (.jstr "")) "AWS::CloudFormation::Stack" &&
          pyEndsWith (parts.getD (parts.length - 2) "") ".NestedStack") = false →
        get_resource_id rp lid = .ok (parts.getD (parts.length - 2) "")) ∧
      ((dget md RESOURCE_CDK_PATH_METADATA_KEY = none ∨
        (∃ v, dget md RESOURCE_CDK_PATH_METADATA_KEY = some v ∧ ∀ t, v ≠ JVal.jstr t) ∨
        dget md RESOURCE_CDK_PATH_METADATA_KEY = some (.jstr "") ∨
        (∃ t, dget md RESOURCE_CDK_PATH_METADATA_KEY = some (.jstr t) ∧
          (pySplit t '/').length < 2)) →
        get_resource_id rp lid = .ok lid)) := by
  refine ⟨?_, fun hnc => ⟨?_, ?_⟩⟩
  · intro c hc hcne
    rw [get_resource_id_eq_core rp md lid hmd]
    unfold get_resource_id_core
    simp [hc, show (c == "") = false from beq_eq_false_iff_ne.mpr hcne]
  · intro s parts hcdk hne hparts hlen hnost
    rw [get_resource_id_eq_core rp md lid hmd,
      get_resource_id_core_no_customer rp md lid hnc,
      get_resource_id_from_cdk_path_eq rp md lid s parts hcdk hne hparts hlen,
      hnost]
    simp
  · intro h
    rw [get_resource_id_eq_core rp md lid hmd,
      get_resource_id_core_no_customer rp md lid hnc,
      get_resource_id_from_cdk_path_fallback rp md lid h]

/-- C6 witness: the three precedence cases at concrete resources: customer
id `my-id` wins over the construct path; `StackA/FuncB/Resource` gives
`FuncB`; a resource with no metadata gives the logical id. -/
theorem C6_witness :
    get_resource_id customerIdResource "L" = .ok "my-id" ∧
    get_resource_id cdkPathResource "L" = .ok "FuncB" ∧
    get_resource_id ([] : List (String × JVal)) "L" = .ok "L" :=
  ⟨(C6_get_resource_id_precedence customerIdResource
      [("SamResourceId", .jstr "my-id"), ("aws:cdk:path", .jstr "StackA/FuncB/Resource")]
      "L" (Or.inl rfl)).1 "my-id" rfl (by decide),
   (C6_get_resource_id_precedence cdkPathResource
      [("aws:cdk:path", .jstr "StackA/FuncB/Resource")] "L" (Or.inl rfl)).2
      (fun c hc => by exact absurd hc (by simp [dget, SAM_RESOURCE_ID_KEY]))
      |>.1 "StackA/FuncB/Resource" ["StackA", "FuncB", "Resource"] rfl (by decide) rfl
        (by decide) rfl,
   (C6_get_resource_id_precedence [] [] "L" (Or.inr ⟨rfl, rfl⟩)).2
      (fun c hc => by exact absurd hc (by simp [dget, SAM_RESOURCE_ID_KEY]))
      |>.2 (Or.inl rfl)⟩

/-! Claim C7. -/

/-- C7 counterexample: with the nested-stack construct path but without the
`AWS::CloudFormation::Stack` type, `getResourceId` returns the segment with
the `.NestedStack` suffix NOT stripped, so the claim — which does not
require the type — is false. -/
theorem C7_counterexample :
    get_resource_id nonStackNestedResource "L" = .ok "NestedStackC.NestedStack" ∧
    "NestedStackC.NestedStack" ≠ "NestedStackC" :=
  ⟨rfl, by decide⟩

/-- C7 (amended): for every resource mapping with no customer-defined id, a
construct path with at least two `/`-segments whose second-to-last segment
ends with `.NestedStack`, AND whose `Type` is `AWS::CloudFormation::Stack`
(the condition the original claim omitted), `getResourceId` returns that
segment with the suffix stripped. -/
theorem C7_nested_stack_strip (rp md : List (String × JVal)) (lid s : String)
    (parts : List String)
    (hmd : dget rp "Metadata" = some (.jobj md) ∨
      (dget rp "Metadata" = none ∧ md = []))
    (hnc : ∀ c, dget md SAM_RESOURCE_ID_KEY = some (.jstr c) → c = "")
    (hcdk : dget md RESOURCE_CDK_PATH_METADATA_KEY = some (.jstr s))
    (hne : s ≠ "")
    (hparts : pySplit s '/' = parts)
    (hlen : 2 ≤ parts.length)
    (hsuf : pyEndsWith (parts.getD (parts.length - 2) "") ".NestedStack" = true)
    (htype : dgetD rp "Type" (.jstr "") = .jstr "AWS::CloudFormation::Stack") :
    get_resource_id rp lid =
      .ok (pyDropRight (parts.getD (parts.length - 2) "") (".NestedStack".length)) := by
  rw [get_resource_id_eq_core rp md lid hmd,
    get_resource_id_core_no_customer rp md lid hnc,
    get_resource_id_from_cdk_path_eq rp md lid s parts hcdk hne hparts hlen,
    htype, hsuf]
  simp [jvEqStr]

/-- C7 witness: the amended claim at the concrete nested-stack resource:
`StackA/NestedStackC.NestedStack/Resource` with the stack type gives
`NestedStackC`. -/
theorem C7_witness :
    get_resource_id nestedStackResource "L" =
      .ok (pyDropRight (["StackA", "NestedStackC.NestedStack", "Resource"].getD
        (["StackA", "NestedStackC.NestedStack", "Resource"].length - 2) "")
        (".NestedStack".length)) :=
  C7_nested_stack_strip nestedStackResource
    [("aws:cdk:path", .jstr "StackA/NestedStackC.NestedStack/Resource")] "L"
    "StackA/NestedStackC.NestedStack/Resource"
    ["StackA", "NestedStackC.NestedStack", "Resource"]
    (Or.inl rfl) (fun c hc => by exact absurd hc (by simp [dget, SAM_RESOURCE_ID_KEY]))
    rfl (by decide) rfl (by decide) rfl rfl

/-! Claim C10. -/

/-- C10: `getResourceId` can return the empty string instead of falling back
to the logical id: with no customer id and a construct-path string of at
least two `/`-segments whose second-to-last segment is empty (such as
`/Resource`), the result is `""`, not the logical id. -/
theorem C10_empty_segment (rp md : List (String × JVal)) (lid s : String)
    (parts : List String)
    (hmd : dget rp "Metadata" = some (.jobj md) ∨
      (dget rp "Metadata" = none ∧ md = []))
    (hnc : ∀ c, dget md SAM_RESOURCE_ID_KEY = some (.jstr c) → c = "")
    (hcdk : dget md RESOURCE_CDK_PATH_METADATA_KEY = some (.jstr s))
    (hne : s ≠ "")
    (hparts : pySplit s '/' = parts)
    (hlen : 2 ≤ parts.length)
    (hseg : parts.getD (parts.length - 2) "" = "")
    (hlid : lid ≠ "") :
    get_resource_id rp lid = .ok "" ∧ "" ≠ lid := by
  refine ⟨?_, fun he => hlid he.symm⟩
  rw [get_resource_id_eq_core rp md lid hmd,
    get_resource_id_core_no_customer rp md lid hnc,
    get_resource_id_from_cdk_path_eq rp md lid s parts hcdk hne hparts hlen,
    hseg]
  simp [pyEndsWith]

/-- C10 witness: the construct path `/Resource` gives the empty string, not
the logical id `L`. -/
theorem C10_witness :
    get_resource_id emptySegmentResource "L" = .ok "" ∧ "" ≠ "L" :=
  C10_empty_segment emptySegmentResource
    [("aws:cdk:path", .jstr "/Resource")] "L" "/Resource" ["", "Resource"]
    (Or.inl rfl) (fun c hc => by exact absurd hc (by simp [dget, SAM_RESOURCE_ID_KEY]))
    rfl (by decide) rfl (by decide) rfl (by decide)

/-- C4 witness: the amended claim at the concrete logical id `MyFunction`. -/
theorem C4_witness :
    (pyLower "MyFunction" ≠ "") ∧
    (normalize (fun _ => false) (imageTemplate "MyFunction") false =
        .ok (imageOutput "MyFunction", []) ∧
      ∃ r1 md1 props1,
        dget (imageOutput "MyFunction") RESOURCES_KEY = some (.jobj [("MyFunction", .jobj r1)]) ∧
        dget r1 METADATA_KEY = some (.jobj md1) ∧
        dget md1 SAM_METADATA_DOCKERFILE_KEY = some (.jstr "Dockerfile") ∧
        dget md1 SAM_METADATA_DOCKER_CONTEXT_KEY = some (.jstr "src/src/docker") ∧
        dget md1 SAM_METADATA_DOCKER_BUILD_ARGS_KEY = some (.jobj [("A", .jstr "1")]) ∧
        dget r1 PROPERTIES_KEY = some (.jobj props1) ∧
        getNested props1 (pySplit IMAGE_ASSET_PROPERTY '.') =
          some (.jstr (pyLower "MyFunction"))) :=
  ⟨by decide, C4_image_asset_metadata "MyFunction" (by decide)⟩

end SamNormalizer
